import Mathlib

/-!
Verification of the EBU R128 loudness engine of DynamikSteuerung
(src/native/src/lib.rs, src/native/src/processing.rs).

The Rust code works on `f64`; here floating-point arithmetic is idealised as
exact rational arithmetic (`ℚ`) for the processing pipeline, and as real
arithmetic (`ℝ`) where the code uses transcendental functions (`log10`,
`powf`, `tan`).  `usize` values are `ℕ` (Rust `usize` subtraction panics on
underflow in debug builds; it is modelled by truncated `ℕ` subtraction, and
out-of-range slice accesses, which panic in Rust, are modelled by the total
`List.getD`/`List.set` operations).  `VecDeque::push_back` is appending at
the end of a `List`.  In-place mutation is modelled by state passing: a Rust
method returning `Result<(), &str>` on `&mut self` becomes a function
returning `Ebur128State × Option String` (the state reached so far together
with the error, mirroring that the mutations before an early `Err` return
persist).
-/

/-- Channel mapping constant from lib.rs (`EBUR128_UNUSED`, an `i32`). -/
def EBUR128_UNUSED : ℤ := 0

/-- Channel mapping constant from lib.rs (`EBUR128_LEFT`). -/
def EBUR128_LEFT : ℤ := 1

/-- Channel mapping constant from lib.rs (`EBUR128_RIGHT`). -/
def EBUR128_RIGHT : ℤ := 2

/-- Channel mapping constant from lib.rs (`EBUR128_CENTER`). -/
def EBUR128_CENTER : ℤ := 3

/-- Channel mapping constant from lib.rs (`EBUR128_LEFT_SURROUND`). -/
def EBUR128_LEFT_SURROUND : ℤ := 4

/-- Channel mapping constant from lib.rs (`EBUR128_RIGHT_SURROUND`). -/
def EBUR128_RIGHT_SURROUND : ℤ := 5

/-- Mode constant from lib.rs: integrated loudness (`EBUR128_MODE_I = 5`). -/
def EBUR128_MODE_I : ℕ := 5

/-- Mode constant from lib.rs: short-term loudness (`EBUR128_MODE_S = 3`). -/
def EBUR128_MODE_S : ℕ := 3

/-- Mode constant from lib.rs: momentary loudness (`EBUR128_MODE_M = 1`). -/
def EBUR128_MODE_M : ℕ := 1

/-- Mode constant from lib.rs: loudness range (`EBUR128_MODE_LRA = 11`). -/
def EBUR128_MODE_LRA : ℕ := 11

/-- A gating block (lib.rs `struct GatingBlock`): one scalar energy value. -/
@[ext]
structure GatingBlock (α : Type) where
  energy : α
deriving DecidableEq, Repr

/-- The meter state (lib.rs `struct Ebur128State`).  The scalar type is a
parameter: processing is analysed over `ℚ`, construction (whose filter
coefficients involve `tan`/`powf`) over `ℝ`. -/
@[ext]
structure Ebur128State (α : Type) where
  mode : ℕ
  sample_rate : ℕ
  channels : ℕ
  channel_map : List ℤ
  a : List α
  b : List α
  v : List (List α)
  audio_data : List α
  audio_data_frames : ℕ
  audio_data_index : ℕ
  needed_frames : ℕ
  block_list : List (GatingBlock α)
  short_term_block_list : List (GatingBlock α)
  block_counter : ℕ
  short_term_frame_counter : ℕ
deriving DecidableEq

/-- processing.rs constant `MINUS_EIGHT_DECIBELS = 0.15848931924611134`. -/
def Ebur128State.MINUS_EIGHT_DECIBELS : ℚ := 0.15848931924611134

/-- processing.rs constant `MINUS_TWENTY_DECIBELS = 0.01`. -/
def Ebur128State.MINUS_TWENTY_DECIBELS : ℚ := 0.01

/-- processing.rs constant `ABS_THRESHOLD_ENERGY = 4.90907876152606E-71`. -/
def Ebur128State.ABS_THRESHOLD_ENERGY : ℚ := 4.90907876152606e-71

/-- The common energy computation shared verbatim by processing.rs
`calc_gating_block` (lines 104-141) and `calc_gating_block_with_output`
(lines 243-278): per channel, if the window straddles the write cursor the
code sums the squares of the raw interleaved buffer slices
`audio_data[..audio_data_index / channels]` and
`audio_data[second_part_start..audio_data_frames]` (the dead `channel_data`
binding in the source shows both branches only accumulate `channel_sum`);
otherwise it sums the squares of channel `c`'s samples of the trailing
`frames_per_block` frames.  Surround channels are weighted by 1.41 and the
total is divided by `frames_per_block`. -/
def Ebur128State.calcGatingBlockEnergy (s : Ebur128State ℚ) (frames_per_block : ℕ) : ℚ :=
  let channelSum := fun (c : ℕ) =>
    if s.audio_data_index < frames_per_block * s.channels then
      let first_part := s.audio_data.take (s.audio_data_index / s.channels)
      let second_part_start :=
        s.audio_data_frames - (frames_per_block - s.audio_data_index / s.channels)
      let second_part :=
        (s.audio_data.drop second_part_start).take (s.audio_data_frames - second_part_start)
      (first_part.map (fun sample => sample * sample)).sum +
        (second_part.map (fun sample => sample * sample)).sum
    else
      let start_idx := s.audio_data_index / s.channels - frames_per_block
      ((List.range frames_per_block).map (fun i =>
        s.audio_data.getD ((start_idx + i) * s.channels + c) 0 *
          s.audio_data.getD ((start_idx + i) * s.channels + c) 0)).sum
  let sum := ((List.range s.channels).map (fun c =>
    if s.channel_map.getD c 0 = EBUR128_UNUSED then 0
    else if s.channel_map.getD c 0 = EBUR128_LEFT_SURROUND ∨
            s.channel_map.getD c 0 = EBUR128_RIGHT_SURROUND then
      channelSum c * 1.41
    else channelSum c)).sum
  sum / (frames_per_block : ℚ)

/-- processing.rs `calc_gating_block` (lines 103-150): compute the window
energy and append a block (incrementing the counter) when the energy
clears `ABS_THRESHOLD_ENERGY`.  The Rust function returns
`Result<(), &str>` but has no error path, so it is modelled as pure. -/
def Ebur128State.calc_gating_block (s : Ebur128State ℚ) (frames_per_block : ℕ) :
    Ebur128State ℚ :=
  let sum := s.calcGatingBlockEnergy frames_per_block
  if Ebur128State.ABS_THRESHOLD_ENERGY ≤ sum then
    { s with block_list := s.block_list ++ [{ energy := sum }],
             block_counter := s.block_counter + 1 }
  else s

/-- processing.rs `calc_gating_block_with_output` (lines 242-281): same
energy computation, returned through the output parameter. -/
def Ebur128State.calc_gating_block_with_output (s : Ebur128State ℚ)
    (frames_per_block : ℕ) : ℚ :=
  s.calcGatingBlockEnergy frames_per_block

/-- processing.rs `energy_in_interval` (lines 231-239). -/
def Ebur128State.energy_in_interval (s : Ebur128State ℚ) (interval_frames : ℕ) :
    Except String ℚ :=
  if s.audio_data_frames < interval_frames then
    Except.error "Interval too large for buffer"
  else Except.ok (s.calc_gating_block_with_output interval_frames)

/-- processing.rs `energy_shortterm` (lines 223-228).  The guard makes the
`Err` case of `energy_in_interval` unreachable, so the result is an
`Option`. -/
def Ebur128State.energy_shortterm (s : Ebur128State ℚ) : Option ℚ :=
  if s.audio_data_frames < s.sample_rate * 3 then none
  else (s.energy_in_interval (s.sample_rate * 3)).toOption

/-- processing.rs `energy_to_loudness` (lines 284-286):
`10 * log10(energy) - 0.691`. -/
noncomputable def Ebur128State.energy_to_loudness (energy : ℝ) : ℝ :=
  10 * Real.logb 10 energy - 0.691

/-- The accumulation loop of processing.rs `gated_loudness` (lines 200-212):
walk the (already sorted, reversed) energies, break once `limit` blocks have
been accumulated, and add every block at or above the threshold. -/
def gatedAccumLoop (relative_threshold : ℚ) (limit : ℕ) :
    List ℚ → ℚ → ℕ → ℚ × ℕ
  | [], gated_energy, above_thresh_count => (gated_energy, above_thresh_count)
  | energy :: rest, gated_energy, above_thresh_count =>
    if limit ≤ above_thresh_count then (gated_energy, above_thresh_count)
    else if relative_threshold ≤ energy then
      gatedAccumLoop relative_threshold limit rest (gated_energy + energy)
        (above_thresh_count + 1)
    else gatedAccumLoop relative_threshold limit rest gated_energy above_thresh_count

/-- The energy-level part of processing.rs `gated_loudness` (lines 186-218):
percentile threshold and gated mean energy over a list of block energies. -/
def gatedLoudnessEnergyCore (all_blocks : List ℚ) (block_count_limit : Option ℕ) :
    Option ℚ :=
  if all_blocks = [] then none
  else
    let threshold_index := Nat.floor ((all_blocks.length : ℚ) * 0.9)
    if all_blocks.length ≤ threshold_index then none
    else
      let sorted := List.insertionSort (fun x y => x ≤ y) all_blocks
      let relative_threshold :=
        sorted.getD threshold_index 0 * Ebur128State.MINUS_EIGHT_DECIBELS
      let limit := block_count_limit.getD all_blocks.length
      let p := gatedAccumLoop relative_threshold limit sorted.reverse 0 0
      if p.2 = 0 then none else some (p.1 / (p.2 : ℚ))

/-- processing.rs `gated_loudness` (lines 171-220): collect the energies of
this state's blocks and those of the additional states, gate them, and
convert the gated mean energy to LUFS. -/
noncomputable def Ebur128State.gated_loudness (s : Ebur128State ℚ)
    (additional_states : List (Ebur128State ℚ)) (block_count_limit : Option ℕ) :
    Option ℝ :=
  let all_blocks := s.block_list.map GatingBlock.energy ++
    (additional_states.map (fun t => t.block_list.map GatingBlock.energy)).flatten
  (gatedLoudnessEnergyCore all_blocks block_count_limit).map
    (fun energy => Ebur128State.energy_to_loudness (energy : ℝ))

/-- processing.rs `loudness_global` (lines 153-159). -/
noncomputable def Ebur128State.loudness_global (s : Ebur128State ℚ) : Option ℝ :=
  if s.mode &&& EBUR128_MODE_I = EBUR128_MODE_I then s.gated_loudness [] none
  else none

/-- processing.rs `loudness_segment` (lines 162-168). -/
noncomputable def Ebur128State.loudness_segment (s : Ebur128State ℚ) : Option ℝ :=
  if s.mode &&& EBUR128_MODE_I = EBUR128_MODE_I then
    s.gated_loudness [] (some s.block_counter)
  else none

/-- processing.rs `start_new_segment` (lines 289-295): reset the block
counter, the window countdown (400 ms), the write cursor and the short-term
frame counter, and zero the ring buffer in place (`fill(0.0)` keeps the
allocation, i.e. the length). -/
def Ebur128State.start_new_segment (s : Ebur128State ℚ) : Ebur128State ℚ :=
  { s with block_counter := 0,
           needed_frames := s.sample_rate / 5 * 2,
           audio_data_index := 0,
           audio_data := List.replicate s.audio_data.length 0,
           short_term_frame_counter := 0 }

/-- lib.rs `init_channel_map` (lines 97-109): the fixed default mapping from
channel index to role (indices 0,1,2 are left/right/center, 4,5 the surround
pair, everything else unused). -/
def Ebur128State.init_channel_map {α : Type} (state : Ebur128State α) : Ebur128State α :=
  { state with channel_map := (List.range state.channels).map (fun i =>
      match i with
      | 0 => EBUR128_LEFT
      | 1 => EBUR128_RIGHT
      | 2 => EBUR128_CENTER
      | 4 => EBUR128_LEFT_SURROUND
      | 5 => EBUR128_RIGHT_SURROUND
      | _ => EBUR128_UNUSED) }

/-- lib.rs `init_filter` (lines 111-152): the K-weighting filter
coefficients, combined from the high-shelf and high-pass biquads by the
bilinear transform (the source's `a1[0]`, `a2[0]` are the literal `1.0`). -/
noncomputable def Ebur128State.init_filter (state : Ebur128State ℝ) : Ebur128State ℝ :=
  let f0 : ℝ := 1681.974450955533
  let g : ℝ := 3.999843853973347
  let q : ℝ := 0.7071752369554196
  let k := Real.tan (Real.pi * f0 / (state.sample_rate : ℝ))
  let vh := (10.0 : ℝ) ^ (g / 20.0)
  let vb := vh ^ (0.4996667741545416 : ℝ)
  let a0 := 1.0 + k / q + k * k
  let b1_0 := (vh + vb * k / q + k * k) / a0
  let b1_1 := 2.0 * (k * k - vh) / a0
  let b1_2 := (vh - vb * k / q + k * k) / a0
  let a1_0 : ℝ := 1.0
  let a1_1 := 2.0 * (k * k - 1.0) / a0
  let a1_2 := (1.0 - k / q + k * k) / a0
  let f0_2 : ℝ := 38.13547087602444
  let q_2 : ℝ := 0.5003270373238773
  let k2 := Real.tan (Real.pi * f0_2 / (state.sample_rate : ℝ))
  let a2_0 : ℝ := 1.0
  let a2_1 := 2.0 * (k2 * k2 - 1.0) / (1.0 + k2 / q_2 + k2 * k2)
  let a2_2 := (1.0 - k2 / q_2 + k2 * k2) / (1.0 + k2 / q_2 + k2 * k2)
  { state with
    b := [b1_0 * 1.0,
          b1_0 * (-2.0) + b1_1 * 1.0,
          b1_0 * 1.0 + b1_1 * (-2.0) + b1_2 * 1.0,
          b1_1 * 1.0 + b1_2 * (-2.0),
          b1_2 * 1.0],
    a := [a1_0 * a2_0,
          a1_0 * a2_1 + a1_1 * a2_0,
          a1_0 * a2_2 + a1_1 * a2_1 + a1_2 * a2_0,
          a1_1 * a2_2 + a1_2 * a2_1,
          a1_2 * a2_2] }

/-- lib.rs `Ebur128State::new` (lines 55-95): reject a mode mask selecting
none of integrated/short-term/momentary, size the ring buffer (3 s when the
short-term bit is present, otherwise 400 ms worth of frames), zero-initialise
every buffer and install the default channel map and filter. -/
noncomputable def Ebur128State.new (channels sample_rate mode : ℕ) :
    Except String (Ebur128State ℝ) :=
  if ¬(mode &&& EBUR128_MODE_I = EBUR128_MODE_I ∨
       mode &&& EBUR128_MODE_S = EBUR128_MODE_S ∨
       mode &&& EBUR128_MODE_M = EBUR128_MODE_M) then
    Except.error "Invalid mode: must include at least one measurement mode"
  else
    let audio_data_frames :=
      if mode &&& EBUR128_MODE_S = EBUR128_MODE_S then sample_rate * 3
      else if mode &&& EBUR128_MODE_M = EBUR128_MODE_M then sample_rate / 5 * 2
      else sample_rate / 5 * 2
    let state : Ebur128State ℝ :=
      { mode := mode, sample_rate := sample_rate, channels := channels,
        channel_map := List.replicate channels 0,
        a := List.replicate 5 0.0,
        b := List.replicate 5 0.0,
        v := List.replicate channels (List.replicate 5 0.0),
        audio_data := List.replicate (audio_data_frames * channels) 0.0,
        audio_data_frames := audio_data_frames,
        audio_data_index := 0,
        needed_frames := sample_rate / 5 * 2,
        block_list := [], short_term_block_list := [],
        block_counter := 0, short_term_frame_counter := 0 }
    Except.ok (Ebur128State.init_filter (Ebur128State.init_channel_map state))

/-- processing.rs `struct AudioLoudnessInfo` (lines 300-306). -/
structure AudioLoudnessInfo where
  lufs : ℝ
  sample_rate : ℕ
  channels : ℕ
  duration_seconds : ℝ
  target_scale : ℝ

/-- processing.rs `AudioLoudnessInfo::new` (lines 309-325): derive the
linear gain for the −18 LUFS reference.  The `f64` test
`lufs.is_finite() && lufs > -70.0` is modelled over `ℝ` (where every value
is finite) as `-70 < lufs`; the unavailable-measurement path feeds the
default `-70.0` (analysis.rs line 148), which lands in the `else` branch. -/
noncomputable def AudioLoudnessInfo.new (lufs : ℝ) (sample_rate channels : ℕ)
    (duration_seconds : ℝ) : AudioLoudnessInfo :=
  let reference_loudness : ℝ := -18.0
  let target_scale : ℝ :=
    if (-70.0 : ℝ) < lufs then (10.0 : ℝ) ^ ((reference_loudness - lufs) / 20.0)
    else 1.0
  { lufs := lufs, sample_rate := sample_rate, channels := channels,
    duration_seconds := duration_seconds, target_scale := target_scale }

/-- One step of the 4th-order IIR recursion of processing.rs `filter_float`
(lines 27-44) on a single channel: compute the new state value `v[c][0]`
from the feedback taps, the output from the feedforward taps, and shift the
5-slot history (`v[c][0]` and `v[c][1]` both hold the new value after the
shift). -/
def filterChannelStep (a b : List ℚ) (vc : List ℚ) (input : ℚ) : List ℚ × ℚ :=
  let v0 := input - a.getD 1 0 * vc.getD 1 0 - a.getD 2 0 * vc.getD 2 0
                  - a.getD 3 0 * vc.getD 3 0 - a.getD 4 0 * vc.getD 4 0
  let output := b.getD 0 0 * v0 + b.getD 1 0 * vc.getD 1 0 + b.getD 2 0 * vc.getD 2 0
              + b.getD 3 0 * vc.getD 3 0 + b.getD 4 0 * vc.getD 4 0
  ([v0, v0, vc.getD 1 0, vc.getD 2 0, vc.getD 3 0], output)

/-- The inner frame loop of processing.rs `filter_float` (lines 23-45) for
one channel `c`: `k` frames remain, `i` is the current frame index; inputs
are read at `src[i * channels + c]` and outputs written at
`audio_data[base + i * channels + c]` (`base` is `audio_data_index`). -/
def filterChannelGo (a b : List ℚ) (ch c : ℕ) (src : List ℚ) (base : ℕ) :
    ℕ → ℕ → List ℚ → List ℚ → List ℚ × List ℚ
  | 0, _, vc, buf => (vc, buf)
  | k + 1, i, vc, buf =>
    let p := filterChannelStep a b vc (src.getD (i * ch + c) 0)
    filterChannelGo a b ch c src base k (i + 1) p.1 (buf.set (base + i * ch + c) p.2)

/-- The outer channel loop of processing.rs `filter_float` (lines 18-46):
`k` channels remain starting at channel `c`; channels whose role is
`EBUR128_UNUSED` are skipped. -/
def filterChannelsGo (a b : List ℚ) (cmap : List ℤ) (ch : ℕ) (src : List ℚ)
    (frames base : ℕ) : ℕ → ℕ → List (List ℚ) → List ℚ → List (List ℚ) × List ℚ
  | 0, _, v, buf => (v, buf)
  | k + 1, c, v, buf =>
    if cmap.getD c 0 = EBUR128_UNUSED then
      filterChannelsGo a b cmap ch src frames base k (c + 1) v buf
    else
      let p := filterChannelGo a b ch c src base frames 0 (v.getD c []) buf
      filterChannelsGo a b cmap ch src frames base k (c + 1) (v.set c p.1) p.2

/-- processing.rs `filter_float` (lines 11-48): validate the frame count
against the source buffer, then run the K-weighting filter channel by
channel, writing weighted samples into the ring buffer starting at
`audio_data_index`.  The error check happens before any mutation. -/
def Ebur128State.filter_float (s : Ebur128State ℚ) (src : List ℚ) (frames : ℕ) :
    Ebur128State ℚ × Option String :=
  if frames = 0 ∨ src.length < frames * s.channels then
    (s, some "Invalid frame count or source buffer size")
  else
    let p := filterChannelsGo s.a s.b s.channel_map s.channels src frames
      s.audio_data_index s.channels 0 s.v s.audio_data
    ({ s with v := p.1, audio_data := p.2 }, none)

/-- The window-completion bookkeeping of processing.rs `add_frames_float`
(lines 62-85), applied to the state `s1` returned by `filter_float`:
advance the write cursor by the `neededFrames` frames just written, evaluate
a 400 ms gating block when integrated mode is on, update the short-term
frame counter and 3 s block list when the loudness-range bits are on, reset
the countdown to 200 ms worth of frames, and wrap the cursor when it reaches
the end of the ring buffer.  Split into two functions for the proofs:
`afterWindowLRA` is the part from the loudness-range update onwards. -/
def afterWindowLRA (s3 : Ebur128State ℚ) (neededFrames : ℕ) : Ebur128State ℚ :=
  let s4 : Ebur128State ℚ :=
    if s3.mode &&& EBUR128_MODE_LRA = EBUR128_MODE_LRA then
      let s4a := { s3 with short_term_frame_counter :=
        s3.short_term_frame_counter + neededFrames }
      if s4a.short_term_frame_counter = s4a.sample_rate * 3 then
        let s4b : Ebur128State ℚ :=
          match s4a.energy_shortterm with
          | some energy =>
            { s4a with short_term_block_list :=
                s4a.short_term_block_list ++ [{ energy := energy }] }
          | none => s4a
        { s4b with short_term_frame_counter := s4b.sample_rate * 2 }
      else s4a
    else s3
  let s5 : Ebur128State ℚ := { s4 with needed_frames := s4.sample_rate / 5 }
  if s5.audio_data_index = s5.audio_data_frames * s5.channels then
    { s5 with audio_data_index := 0 }
  else s5

/-- The first half of the window-completion bookkeeping: cursor advance and
the integrated-mode gating-block evaluation; the rest is `afterWindowLRA`. -/
def afterWindow (s1 : Ebur128State ℚ) (neededFrames : ℕ) : Ebur128State ℚ :=
  let s2 : Ebur128State ℚ := { s1 with audio_data_index := s1.audio_data_index + neededFrames * s1.channels }
  let s3 := if s2.mode &&& EBUR128_MODE_I = EBUR128_MODE_I then
      s2.calc_gating_block (s2.sample_rate / 5 * 2)
    else s2
  afterWindowLRA s3 neededFrames

/-- The partial-chunk bookkeeping of processing.rs `add_frames_float`
(lines 86-97): advance the cursor by the frames written, bump the short-term
counter when the loudness-range bits are on, and decrease the countdown. -/
def afterPartial (s1 : Ebur128State ℚ) (remaining : ℕ) : Ebur128State ℚ :=
  let s2 : Ebur128State ℚ := { s1 with audio_data_index := s1.audio_data_index + remaining * s1.channels }
  let s3 : Ebur128State ℚ := if s2.mode &&& EBUR128_MODE_LRA = EBUR128_MODE_LRA then
      { s2 with short_term_frame_counter := s2.short_term_frame_counter + remaining }
    else s2
  { s3 with needed_frames := s3.needed_frames - remaining }

/-- The main loop of processing.rs `add_frames_float` (lines 55-98).  The
source indexes into `src` through `src_index`; passing the suffix
(`List.drop`) to each iteration is the same thing, since `filter_float`
receives exactly `&src[src_index..]`.  When `needed_frames` is zero and
frames remain, `filter_float` is called with a zero frame count and its
error is returned (the check is hoisted here so that the recursion
decreases). -/
def addFramesGo (s : Ebur128State ℚ) (src : List ℚ) (remaining : ℕ) :
    Ebur128State ℚ × Option String :=
  if h0 : remaining = 0 then (s, none)
  else if hn : s.needed_frames = 0 then
    (s, some "Invalid frame count or source buffer size")
  else if hle : s.needed_frames ≤ remaining then
    match s.filter_float src s.needed_frames with
    | (s1, some e) => (s1, some e)
    | (s1, none) =>
      addFramesGo (afterWindow s1 s.needed_frames)
        (src.drop (s.needed_frames * s.channels)) (remaining - s.needed_frames)
  else
    match s.filter_float src remaining with
    | (s1, some e) => (s1, some e)
    | (s1, none) => (afterPartial s1 remaining, none)
termination_by remaining
decreasing_by omega

/-- processing.rs `add_frames_float` (lines 51-100). -/
def Ebur128State.add_frames_float (s : Ebur128State ℚ) (src : List ℚ) (frames : ℕ) :
    Ebur128State ℚ × Option String :=
  addFramesGo s src frames

/-- The gating-block energy as the specification words it (spec §4.3 /
claim C2): for each non-unused channel, sum the squared samples of THAT
channel over the trailing `frames_per_block` frames, split into a head
segment (frames `0..cursor`) and a tail segment (frames
`frames - (frames_per_block - cursor) .. frames`) when the window straddles
the ring buffer's end; weight surround channels by 1.41, accumulate, divide
by `frames_per_block`.  Used to compare the source's computation against the
spec sentence. -/
def gatingBlockEnergySpec (s : Ebur128State ℚ) (frames_per_block : ℕ) : ℚ :=
  let cursor := s.audio_data_index / s.channels
  let channelSum := fun (c : ℕ) =>
    if cursor < frames_per_block then
      ((List.range cursor).map (fun f =>
        s.audio_data.getD (f * s.channels + c) 0 *
          s.audio_data.getD (f * s.channels + c) 0)).sum +
      ((List.range (frames_per_block - cursor)).map (fun t =>
        s.audio_data.getD
            ((s.audio_data_frames - (frames_per_block - cursor) + t) * s.channels + c) 0 *
          s.audio_data.getD
            ((s.audio_data_frames - (frames_per_block - cursor) + t) * s.channels + c) 0)).sum
    else
      ((List.range frames_per_block).map (fun f =>
        s.audio_data.getD ((cursor - frames_per_block + f) * s.channels + c) 0 *
          s.audio_data.getD ((cursor - frames_per_block + f) * s.channels + c) 0)).sum
  (((List.range s.channels).map (fun c =>
    if s.channel_map.getD c 0 = EBUR128_UNUSED then 0
    else if s.channel_map.getD c 0 = EBUR128_LEFT_SURROUND ∨
            s.channel_map.getD c 0 = EBUR128_RIGHT_SURROUND then
      channelSum c * 1.41
    else channelSum c)).sum) / (frames_per_block : ℚ)

/-- The relative-gate aggregation as the specification words it (spec §4.4 /
claim C4): sort the energies ascending, take the element at rank
`floor(count * 0.9)` as the loudness proxy, scale it by the −8 dB energy
factor for the relative threshold, accumulate from loudest to quietest every
block at or above the threshold up to the optional count limit, and average;
`none` when nothing is accumulated. -/
def gatedLoudnessSpecEnergy (all_blocks : List ℚ) (block_count_limit : Option ℕ) :
    Option ℚ :=
  if all_blocks = [] then none
  else
    let sorted := List.insertionSort (fun x y => x ≤ y) all_blocks
    let proxy := sorted.getD (Nat.floor ((all_blocks.length : ℚ) * 0.9)) 0
    let relative_threshold := proxy * Ebur128State.MINUS_EIGHT_DECIBELS
    let accumulated := (sorted.reverse.filter
        (fun energy => relative_threshold ≤ energy)).take
      (block_count_limit.getD all_blocks.length)
    if accumulated = [] then none
    else some (accumulated.sum / (accumulated.length : ℚ))

/-- The integrated-loudness aggregation as the specification words it:
the gated mean energy of `gatedLoudnessSpecEnergy` converted to LUFS by
`10 * log10(energy) - 0.691`. -/
noncomputable def integratedLoudnessSpec (all_blocks : List ℚ)
    (block_count_limit : Option ℕ) : Option ℝ :=
  (gatedLoudnessSpecEnergy all_blocks block_count_limit).map
    (fun energy => 10 * Real.logb 10 (energy : ℝ) - 0.691)

/-- Concrete meter state for claim C1: one stored momentary block and one
stored short-term block. -/
def stateC1 : Ebur128State ℚ :=
  { mode := 5, sample_rate := 5, channels := 1, channel_map := [1],
    a := [1, 0, 0, 0, 0], b := [1, 0, 0, 0, 0], v := [[0, 0, 0, 0, 0]],
    audio_data := [3, 4], audio_data_frames := 2, audio_data_index := 1,
    needed_frames := 1, block_list := [{ energy := 1 }],
    short_term_block_list := [{ energy := 2 }],
    block_counter := 1, short_term_frame_counter := 0 }

/-- Concrete meter state for claim C2: stereo, ring buffer of 2 frames with
samples `[(1,0), (0,0)]`, write cursor one frame in (`audio_data_index = 2`),
so a 2-frame gating window straddles the buffer end.  Reachable with
`sample_rate = 5`, integrated mode, after the cursor has wrapped once. -/
def stateC2 : Ebur128State ℚ :=
  { mode := 5, sample_rate := 5, channels := 2, channel_map := [1, 2],
    a := [1, 0, 0, 0, 0], b := [1, 0, 0, 0, 0],
    v := [[0, 0, 0, 0, 0], [0, 0, 0, 0, 0]],
    audio_data := [1, 0, 0, 0], audio_data_frames := 2, audio_data_index := 2,
    needed_frames := 1, block_list := [], short_term_block_list := [],
    block_counter := 0, short_term_frame_counter := 0 }

/-- Concrete meter state for claim C3: mono, one-frame buffer holding the
weighted sample `1/10000`, so a 1-frame gating window has mean-square energy
`10⁻⁸` — below the −70 LUFS energy equivalent (≈1.17·10⁻⁷) yet far above
the code's `ABS_THRESHOLD_ENERGY = 4.909·10⁻⁷¹`. -/
def stateC3 : Ebur128State ℚ :=
  { mode := 5, sample_rate := 5, channels := 1, channel_map := [1],
    a := [1, 0, 0, 0, 0], b := [1, 0, 0, 0, 0], v := [[0, 0, 0, 0, 0]],
    audio_data := [1 / 10000], audio_data_frames := 1, audio_data_index := 1,
    needed_frames := 1, block_list := [], short_term_block_list := [],
    block_counter := 0, short_term_frame_counter := 0 }

/-- Concrete meter state for claim C4's witness: a single stored block. -/
def stateC4 : Ebur128State ℚ :=
  { mode := 5, sample_rate := 5, channels := 1, channel_map := [1],
    a := [1, 0, 0, 0, 0], b := [1, 0, 0, 0, 0], v := [[0, 0, 0, 0, 0]],
    audio_data := [0, 0], audio_data_frames := 2, audio_data_index := 0,
    needed_frames := 2, block_list := [{ energy := 1 }],
    short_term_block_list := [],
    block_counter := 1, short_term_frame_counter := 0 }

/-- Concrete meter state for claim C5's counterexample: an old (pre-reset)
block of energy 4 followed by one post-reset block of energy 1; the segment
block counter is 1. -/
def stateC5pre : Ebur128State ℚ :=
  { mode := 5, sample_rate := 5, channels := 1, channel_map := [1],
    a := [1, 0, 0, 0, 0], b := [1, 0, 0, 0, 0], v := [[0, 0, 0, 0, 0]],
    audio_data := [0, 0], audio_data_frames := 2, audio_data_index := 0,
    needed_frames := 2, block_list := [{ energy := 4 }, { energy := 1 }],
    short_term_block_list := [],
    block_counter := 1, short_term_frame_counter := 0 }

/-- Concrete meter state for claim C5's counterexample: the same single
post-reset block of energy 1 with no pre-reset history. -/
def stateC5post : Ebur128State ℚ :=
  { mode := 5, sample_rate := 5, channels := 1, channel_map := [1],
    a := [1, 0, 0, 0, 0], b := [1, 0, 0, 0, 0], v := [[0, 0, 0, 0, 0]],
    audio_data := [0, 0], audio_data_frames := 2, audio_data_index := 0,
    needed_frames := 2, block_list := [{ energy := 1 }],
    short_term_block_list := [],
    block_counter := 1, short_term_frame_counter := 0 }

/-- Concrete meter state for claim C5's amended-claim witness. -/
def stateC5w : Ebur128State ℚ :=
  { mode := 5, sample_rate := 5, channels := 1, channel_map := [1],
    a := [1, 0, 0, 0, 0], b := [1, 0, 0, 0, 0], v := [[0, 0, 0, 0, 0]],
    audio_data := [0, 0], audio_data_frames := 2, audio_data_index := 0,
    needed_frames := 2, block_list := [{ energy := 2 }],
    short_term_block_list := [],
    block_counter := 1, short_term_frame_counter := 0 }

/-- Concrete fresh meter state (mono, `sample_rate = 5`, integrated mode,
400 ms ring buffer) used by the witnesses of claims C8 and C9. -/
def stateFreshMono : Ebur128State ℚ :=
  { mode := 5, sample_rate := 5, channels := 1, channel_map := [1],
    a := [1, 1/2, 0, 0, 0], b := [1, 1/3, 0, 0, 0], v := [[0, 0, 0, 0, 0]],
    audio_data := [0, 0], audio_data_frames := 2, audio_data_index := 0,
    needed_frames := 2, block_list := [], short_term_block_list := [],
    block_counter := 0, short_term_frame_counter := 0 }

/-- Concrete four-channel meter state with the default channel map (channel
index 3 is unused) used by claim C10's witness. -/
def stateQuad : Ebur128State ℚ :=
  { mode := 5, sample_rate := 5, channels := 4, channel_map := [1, 2, 3, 0],
    a := [1, 0, 0, 0, 0], b := [1, 0, 0, 0, 0],
    v := [[0, 0, 0, 0, 0], [0, 0, 0, 0, 0], [0, 0, 0, 0, 0], [0, 0, 0, 0, 0]],
    audio_data := List.replicate 8 0, audio_data_frames := 2, audio_data_index := 0,
    needed_frames := 2, block_list := [], short_term_block_list := [],
    block_counter := 0, short_term_frame_counter := 0 }

/-- Feeding a list of chunks in order through `add_frames_float`, threading
the meter state; each chunk carries `length / channels` whole frames, the
way the chunked reader in analysis.rs (lines 94-144) calls the meter. -/
def addFramesChunked (s : Ebur128State ℚ) (chunks : List (List ℚ)) :
    Ebur128State ℚ :=
  chunks.foldl (fun st c => (st.add_frames_float c (c.length / st.channels)).1) s

/-! ### List helper lemmas -/

theorem getD_eq_default {α : Type} (l : List α) (d : α) {p : ℕ} (h : l.length ≤ p) :
    l.getD p d = d := by
  simp [List.getD_eq_getElem?_getD, List.getElem?_eq_none h]

theorem getD_set_self {α : Type} (l : List α) (i : ℕ) (x d : α) (h : i < l.length) :
    (l.set i x).getD i d = x := by
  simp [List.getD_eq_getElem?_getD, List.getElem?_set, h]

theorem getD_set_ne {α : Type} (l : List α) {i j : ℕ} (x d : α) (h : i ≠ j) :
    (l.set i x).getD j d = l.getD j d := by
  simp [List.getD_eq_getElem?_getD, List.getElem?_set, h]

theorem getD_append_left {α : Type} {l₁ l₂ : List α} {p : ℕ} (d : α)
    (h : p < l₁.length) : (l₁ ++ l₂).getD p d = l₁.getD p d := by
  simp [List.getD_eq_getElem?_getD, List.getElem?_append, h]

theorem getD_append_right {α : Type} {l₁ l₂ : List α} {p : ℕ} (d : α)
    (h : l₁.length ≤ p) : (l₁ ++ l₂).getD p d = l₂.getD (p - l₁.length) d := by
  simp [List.getD_eq_getElem?_getD, List.getElem?_append, Nat.not_lt.mpr h]

theorem getD_drop {α : Type} (l : List α) (n p : ℕ) (d : α) :
    (l.drop n).getD p d = l.getD (n + p) d := by
  simp [List.getD_eq_getElem?_getD, List.getElem?_drop]

theorem ext_of_getD {α : Type} {l₁ l₂ : List α} (d : α)
    (hlen : l₁.length = l₂.length) (h : ∀ p, l₁.getD p d = l₂.getD p d) :
    l₁ = l₂ := by
  refine List.ext_getElem hlen (fun n h₁ h₂ => ?_)
  have := h n
  rwa [List.getD_eq_getElem?_getD, List.getD_eq_getElem?_getD,
    List.getElem?_eq_getElem h₁, List.getElem?_eq_getElem h₂] at this

/-! ### Claim C1 -/

/-- Counterexample to claim C1: after `start_new_segment` the momentary and
short-term block lists are NOT empty — the reset keeps the stored blocks and
only resets the counters, cursor and ring buffer. -/
theorem claim_C1_counterexample :
    (stateC1.start_new_segment).block_list ≠ [] ∧
      (stateC1.start_new_segment).short_term_block_list ≠ [] := by
  decide

/-- Claim C1 (amended): `start_new_segment` resets the block counter, the
window countdown (back to 400 ms worth of frames), the write cursor and the
short-term frame counter, and zeroes the ring buffer in place keeping its
length; the momentary and short-term block lists are left unchanged (they
are not cleared), and the buffer capacity field is unchanged. -/
theorem claim_C1_reset_segment (s : Ebur128State ℚ) :
    (s.start_new_segment).block_counter = 0 ∧
      (s.start_new_segment).needed_frames = s.sample_rate / 5 * 2 ∧
      (s.start_new_segment).audio_data_index = 0 ∧
      (s.start_new_segment).short_term_frame_counter = 0 ∧
      (s.start_new_segment).audio_data = List.replicate s.audio_data.length 0 ∧
      (s.start_new_segment).audio_data.length = s.audio_data.length ∧
      (s.start_new_segment).audio_data_frames = s.audio_data_frames ∧
      (s.start_new_segment).block_list = s.block_list ∧
      (s.start_new_segment).short_term_block_list = s.short_term_block_list ∧
      (s.start_new_segment).mode = s.mode ∧
      (s.start_new_segment).sample_rate = s.sample_rate ∧
      (s.start_new_segment).channels = s.channels := by
  refine ⟨rfl, rfl, rfl, rfl, rfl, ?_, rfl, rfl, rfl, rfl, rfl, rfl⟩
  simp [Ebur128State.start_new_segment]

/-! ### Claim C2 -/

/-- Claim C2 fails on the code: at `stateC2` (a reachable stereo state whose
2-frame window straddles the ring buffer's end) the code's gating-block
energy is `1`, while the per-channel head-plus-tail sum described by the
specification gives `1/2`; the stored block records the energy `1`.  In the
wrap-around branch the code sums the raw interleaved slices
`audio_data[..audio_data_index / channels]` and
`audio_data[second_part_start..audio_data_frames]`, ignoring the channel
index entirely. -/
theorem claim_C2_counterexample :
    stateC2.calcGatingBlockEnergy 2 = 1 ∧
      gatingBlockEnergySpec stateC2 2 = 1 / 2 ∧
      (stateC2.calc_gating_block 2).block_list = [{ energy := 1 }] ∧
      (1 : ℚ) ≠ 1 / 2 := by
  have hcode : stateC2.calcGatingBlockEnergy 2 = 1 := by
    norm_num [Ebur128State.calcGatingBlockEnergy, stateC2, List.range_succ,
      EBUR128_UNUSED, EBUR128_LEFT_SURROUND, EBUR128_RIGHT_SURROUND, List.getD]
  refine ⟨hcode, ?_, ?_, by norm_num⟩
  · norm_num [gatingBlockEnergySpec, stateC2, List.range_succ,
      EBUR128_UNUSED, EBUR128_LEFT_SURROUND, EBUR128_RIGHT_SURROUND, List.getD]
  · rw [Ebur128State.calc_gating_block]
    rw [if_pos (by rw [hcode]; norm_num [Ebur128State.ABS_THRESHOLD_ENERGY])]
    simp only [hcode]
    simp [stateC2]

/-! ### Claim C3 -/

/-- Claim C3 fails on the code: the absolute-gate constant in the code is
`4.90907876152606e-71`, not the energy equivalent of −70 LUFS
(`10^((−70 + 0.691)/10) ≈ 1.17e-7`).  At `stateC3` the gating block has
mean-square energy `10⁻⁸`, which is below the −70 LUFS energy equivalent —
so by the claim it must be discarded — yet the code stores it and increments
the block counter. -/
theorem claim_C3_counterexample :
    (stateC3.calc_gating_block 1).block_list = [{ energy := 1 / 100000000 }] ∧
      (stateC3.calc_gating_block 1).block_counter = 1 ∧
      (1 / 100000000 : ℝ) < (10 : ℝ) ^ (((-70 : ℝ) + 0.691) / 10) := by
  have he : stateC3.calcGatingBlockEnergy 1 = 1 / 100000000 := by
    norm_num [Ebur128State.calcGatingBlockEnergy, stateC3, List.range_succ,
      EBUR128_UNUSED, EBUR128_LEFT_SURROUND, EBUR128_RIGHT_SURROUND, List.getD]
  refine ⟨?_, ?_, ?_⟩
  · rw [Ebur128State.calc_gating_block,
      if_pos (by rw [he]; norm_num [Ebur128State.ABS_THRESHOLD_ENERGY])]
    simp only [he]
    simp [stateC3]
  · rw [Ebur128State.calc_gating_block,
      if_pos (by rw [he]; norm_num [Ebur128State.ABS_THRESHOLD_ENERGY])]
    simp [stateC3]
  have h7 : (10 : ℝ) ^ ((-7 : ℝ)) = ((10 : ℝ) ^ (7 : ℕ))⁻¹ := by
    rw [show ((-7 : ℝ)) = -((7 : ℕ) : ℝ) by norm_num,
      Real.rpow_neg (by norm_num), Real.rpow_natCast]
  have hlt : (10 : ℝ) ^ ((-7 : ℝ)) < (10 : ℝ) ^ (((-70 : ℝ) + 0.691) / 10) := by
    rw [Real.rpow_lt_rpow_left_iff (by norm_num)]
    norm_num
  calc (1 / 100000000 : ℝ) < ((10 : ℝ) ^ (7 : ℕ))⁻¹ := by norm_num
    _ = (10 : ℝ) ^ ((-7 : ℝ)) := h7.symm
    _ < _ := hlt

/-! ### Claim C6 -/

/-- Claim C6: for any channel count ≥ 1 and sample rate > 0, construction
succeeds iff the mode mask selects at least one of the integrated,
short-term or momentary modes, and otherwise returns exactly the
invalid-mode configuration error. -/
theorem claim_C6_construct (channels sample_rate mode : ℕ)
    (hch : 1 ≤ channels) (hsr : 0 < sample_rate) :
    ((Ebur128State.new channels sample_rate mode).isOk = true ↔
      (mode &&& EBUR128_MODE_I = EBUR128_MODE_I ∨
       mode &&& EBUR128_MODE_S = EBUR128_MODE_S ∨
       mode &&& EBUR128_MODE_M = EBUR128_MODE_M)) ∧
    (¬(mode &&& EBUR128_MODE_I = EBUR128_MODE_I ∨
       mode &&& EBUR128_MODE_S = EBUR128_MODE_S ∨
       mode &&& EBUR128_MODE_M = EBUR128_MODE_M) →
      Ebur128State.new channels sample_rate mode =
        Except.error "Invalid mode: must include at least one measurement mode") := by
  by_cases h : (mode &&& EBUR128_MODE_I = EBUR128_MODE_I ∨
      mode &&& EBUR128_MODE_S = EBUR128_MODE_S ∨
      mode &&& EBUR128_MODE_M = EBUR128_MODE_M) <;>
    simp [Ebur128State.new, h, Except.isOk, Except.toBool]

/-- Witness for claim C6: a mono 48 kHz meter with the integrated-mode mask
constructs successfully, and the mask `8` (no measurement mode) is
rejected with the invalid-mode error. -/
theorem claim_C6_construct_witness :
    (Ebur128State.new 1 48000 5).isOk = true ∧
      Ebur128State.new 1 48000 8 =
        Except.error "Invalid mode: must include at least one measurement mode" := by
  constructor
  · exact (claim_C6_construct 1 48000 5 (by decide) (by decide)).1.mpr (by decide)
  · exact (claim_C6_construct 1 48000 8 (by decide) (by decide)).2 (by decide)

/-! ### Claim C7 -/

/-- Claim C7: the derived linear gain is `10^((−18 − L)/20)` for a loudness
`L` strictly above −70 LUFS and `1.0` otherwise; in particular `L = −70`
and `L = −18` give gain 1 and `L = −24` gives `10^(6/20)`.  (The `f64`
finiteness test of the source is vacuous in the real-number model; the
unavailable-measurement path substitutes `−70.0`, which takes the `else`
branch.) -/
theorem claim_C7_gain (lufs : ℝ) (sample_rate channels : ℕ) (duration : ℝ) :
    ((-70 : ℝ) < lufs →
      (AudioLoudnessInfo.new lufs sample_rate channels duration).target_scale =
        (10 : ℝ) ^ (((-18 : ℝ) - lufs) / 20)) ∧
    (lufs ≤ -70 →
      (AudioLoudnessInfo.new lufs sample_rate channels duration).target_scale = 1) ∧
    (AudioLoudnessInfo.new (-70) sample_rate channels duration).target_scale = 1 ∧
    (AudioLoudnessInfo.new (-18) sample_rate channels duration).target_scale = 1 ∧
    (AudioLoudnessInfo.new (-24) sample_rate channels duration).target_scale =
      (10 : ℝ) ^ ((6 : ℝ) / 20) := by
  have h70 : ((-70.0 : ℝ)) = (-70 : ℝ) := by norm_num
  refine ⟨fun h => ?_, fun h => ?_, ?_, ?_, ?_⟩
  · simp only [AudioLoudnessInfo.new, h70]
    rw [if_pos h]
    norm_num
  · simp only [AudioLoudnessInfo.new, h70]
    rw [if_neg (by exact not_lt.mpr h)]
    norm_num
  · simp only [AudioLoudnessInfo.new, h70]
    rw [if_neg (by norm_num)]
    norm_num
  · simp only [AudioLoudnessInfo.new, h70]
    rw [if_pos (by norm_num)]
    norm_num [Real.rpow_zero]
  · simp only [AudioLoudnessInfo.new, h70]
    rw [if_pos (by norm_num)]
    norm_num

/-- Witness for claim C7: at loudness −24 LUFS the derived gain is
`10^(6/20)`. -/
theorem claim_C7_gain_witness :
    (AudioLoudnessInfo.new (-24) 48000 2 3).target_scale =
      (10 : ℝ) ^ ((6 : ℝ) / 20) :=
  (claim_C7_gain (-24) 48000 2 3).2.2.2.2

/-! ### Claims C4 and C5: the relative gate -/

theorem gatedAccumLoop_eq (thr : ℚ) (lim : ℕ) (xs : List ℚ) :
    ∀ (acc : ℚ) (cnt : ℕ),
      gatedAccumLoop thr lim xs acc cnt =
        (acc + ((xs.filter (fun e => thr ≤ e)).take (lim - cnt)).sum,
         cnt + min (lim - cnt) ((xs.filter (fun e => thr ≤ e)).length)) := by
  induction xs with
  | nil => intro acc cnt; simp [gatedAccumLoop]
  | cons e rest ih =>
    intro acc cnt
    rw [gatedAccumLoop]
    by_cases hlim : lim ≤ cnt
    · rw [if_pos hlim]
      simp [Nat.sub_eq_zero_of_le hlim]
    · rw [if_neg hlim]
      by_cases hthr : thr ≤ e
      · rw [if_pos hthr, ih]
        have hk : lim - cnt = (lim - (cnt + 1)) + 1 := by omega
        rw [List.filter_cons_of_pos (by simpa using hthr), hk, List.take_succ_cons]
        simp only [Prod.mk.injEq, List.sum_cons, List.length_cons]
        constructor
        · ring
        · omega
      · rw [if_neg hthr, ih, List.filter_cons_of_neg (by simpa using hthr)]

theorem gatedLoudnessEnergyCore_eq_spec (all_blocks : List ℚ) (limit : Option ℕ) :
    gatedLoudnessEnergyCore all_blocks limit = gatedLoudnessSpecEnergy all_blocks limit := by
  by_cases hne : all_blocks = []
  · simp [gatedLoudnessEnergyCore, gatedLoudnessSpecEnergy, hne]
  · have hlen : 0 < all_blocks.length := List.length_pos.mpr hne
    have hti : Nat.floor ((all_blocks.length : ℚ) * 0.9) < all_blocks.length := by
      refine (Nat.floor_lt (by positivity)).mpr ?_
      have h1 : ((all_blocks.length : ℚ)) * 0.9 < (all_blocks.length : ℚ) * 1 :=
        mul_lt_mul_of_pos_left (by norm_num) (by exact_mod_cast hlen)
      simpa using h1
    simp only [gatedLoudnessEnergyCore, gatedLoudnessSpecEnergy, hne, if_false,
      if_neg (not_le.mpr hti)]
    rw [gatedAccumLoop_eq]
    simp only [Nat.sub_zero, zero_add, List.length_take]
    by_cases hz : min (limit.getD all_blocks.length)
        (((List.insertionSort (fun x y => x ≤ y) all_blocks).reverse.filter
          (fun e =>
            (List.insertionSort (fun x y => x ≤ y) all_blocks).getD
                (Nat.floor ((all_blocks.length : ℚ) * 0.9)) 0 *
              Ebur128State.MINUS_EIGHT_DECIBELS ≤ e)).length) = 0
    · rw [if_pos hz, if_pos ?_]
      rcases Nat.min_eq_zero_iff.mp hz with h | h
      · exact List.take_eq_nil_iff.mpr (Or.inl h)
      · exact List.take_eq_nil_iff.mpr (Or.inr (List.length_eq_zero.mp h))
    · rw [if_neg hz, if_neg ?_]
      intro hcon
      exact hz (by simpa [List.length_take] using congrArg List.length hcon)

/-- Claim C4: for a non-empty momentary block list, `gated_loudness` (and
hence `loudness_global` when integrated mode is on) computes exactly the
spec's algorithm: sort ascending, take the rank-`floor(count*0.9)` element
as proxy, scale by the −8 dB energy factor, accumulate from loudest to
quietest every block at or above the threshold up to the optional limit,
average, and convert by `10·log10 − 0.691`; `none` when nothing clears the
threshold. -/
theorem claim_C4_gated_loudness (s : Ebur128State ℚ) (limit : Option ℕ)
    (hne : s.block_list ≠ []) :
    s.gated_loudness [] limit =
      integratedLoudnessSpec (s.block_list.map GatingBlock.energy) limit ∧
    (s.mode &&& EBUR128_MODE_I = EBUR128_MODE_I →
      s.loudness_global =
        integratedLoudnessSpec (s.block_list.map GatingBlock.energy) none) := by
  have key : ∀ l, s.gated_loudness [] l =
      integratedLoudnessSpec (s.block_list.map GatingBlock.energy) l := by
    intro l
    rw [Ebur128State.gated_loudness, integratedLoudnessSpec]
    simp [gatedLoudnessEnergyCore_eq_spec, Ebur128State.energy_to_loudness]
  exact ⟨key limit, fun hm => by
    rw [Ebur128State.loudness_global, if_pos hm, key none]⟩

/-- Witness for claim C4 at a concrete state with one stored block. -/
theorem claim_C4_gated_loudness_witness :
    stateC4.gated_loudness [] none =
      integratedLoudnessSpec (stateC4.block_list.map GatingBlock.energy) none :=
  (claim_C4_gated_loudness stateC4 none (by decide)).1

/-- Counterexample to claim C5: two states with the same mode, the same
segment block counter (1) and the same single post-reset block (energy 1),
one of which additionally holds an older pre-reset block of energy 4;
`loudness_segment` differs, so the pre-reset block DOES contribute. -/
theorem claim_C5_counterexample :
    stateC5pre.block_counter = stateC5post.block_counter ∧
      stateC5pre.mode = stateC5post.mode ∧
      stateC5pre.block_list.drop
          (stateC5pre.block_list.length - stateC5pre.block_counter) =
        stateC5post.block_list.drop
          (stateC5post.block_list.length - stateC5post.block_counter) ∧
      stateC5pre.loudness_segment ≠ stateC5post.loudness_segment := by
  have h95 : (Nat.floor ((9:ℚ)/5)) = 1 := by
    rw [Nat.floor_eq_iff (by positivity)]; norm_num
  have h910 : (Nat.floor ((9:ℚ)/10)) = 0 := by
    rw [Nat.floor_eq_iff (by positivity)]; norm_num
  have hpre : gatedLoudnessEnergyCore [4, 1] (some 1) = some 4 := by
    rw [gatedLoudnessEnergyCore]
    norm_num [List.insertionSort, List.orderedInsert, gatedAccumLoop,
      Ebur128State.MINUS_EIGHT_DECIBELS, List.getD, h95]
    exact fun h => absurd h (by simp)
  have hpost : gatedLoudnessEnergyCore [1] (some 1) = some 1 := by
    rw [gatedLoudnessEnergyCore]
    norm_num [List.insertionSort, List.orderedInsert, gatedAccumLoop,
      Ebur128State.MINUS_EIGHT_DECIBELS, List.getD, h910]
  refine ⟨rfl, rfl, rfl, ?_⟩
  have e1 : stateC5pre.loudness_segment =
      some (Ebur128State.energy_to_loudness ((4 : ℚ) : ℝ)) := by
    rw [Ebur128State.loudness_segment, if_pos (by decide),
      Ebur128State.gated_loudness]
    simp [stateC5pre, hpre]
  have e2 : stateC5post.loudness_segment =
      some (Ebur128State.energy_to_loudness ((1 : ℚ) : ℝ)) := by
    rw [Ebur128State.loudness_segment, if_pos (by decide),
      Ebur128State.gated_loudness]
    simp [stateC5post, hpost]
  rw [e1, e2]
  intro hcon
  have hlog := Option.some.inj hcon
  rw [Ebur128State.energy_to_loudness, Ebur128State.energy_to_loudness] at hlog
  rw [show (((4 : ℚ) : ℝ)) = (4 : ℝ) by norm_num,
    show (((1 : ℚ) : ℝ)) = (1 : ℝ) by norm_num, Real.logb_one] at hlog
  have hpos : 0 < Real.logb 10 (4 : ℝ) :=
    Real.logb_pos (by norm_num) (by norm_num)
  linarith

/-- Claim C5 (amended): `loudness_segment` equals the spec algorithm with
count limit `block_counter` applied to the ENTIRE stored block history: at
most `block_counter` blocks are accumulated, but they are the loudest blocks
of the whole history (with the relative threshold computed from the whole
history), so blocks produced before the last reset can contribute.  The
second conjunct states the true part of the claim: the accumulation loop
never accumulates more than `block_counter` blocks. -/
theorem claim_C5_segment (s : Ebur128State ℚ)
    (hm : s.mode &&& EBUR128_MODE_I = EBUR128_MODE_I) :
    s.loudness_segment =
      integratedLoudnessSpec (s.block_list.map GatingBlock.energy)
        (some s.block_counter) ∧
    (∀ (thr : ℚ) (xs : List ℚ),
      (gatedAccumLoop thr s.block_counter xs 0 0).2 ≤ s.block_counter) := by
  constructor
  · rw [Ebur128State.loudness_segment, if_pos hm, Ebur128State.gated_loudness,
      integratedLoudnessSpec]
    simp [gatedLoudnessEnergyCore_eq_spec, Ebur128State.energy_to_loudness]
  · intro thr xs
    rw [gatedAccumLoop_eq]
    simp

/-- Witness for claim C5's amended statement at a concrete state. -/
theorem claim_C5_segment_witness :
    stateC5w.loudness_segment =
      integratedLoudnessSpec (stateC5w.block_list.map GatingBlock.energy)
        (some stateC5w.block_counter) :=
  (claim_C5_segment stateC5w (by decide)).1

/-! ### Filter decomposition machinery (claims C8, C9, C10) -/

theorem writePos_inj {base j c2 j2 c3 ch : ℕ} (h2 : c2 < ch) (h3 : c3 < ch)
    (h : base + j * ch + c2 = base + j2 * ch + c3) : c2 = c3 ∧ j = j2 := by
  have h4 : j * ch + c2 = j2 * ch + c3 := by omega
  have h5 : (j * ch + c2) % ch = c2 := by
    rw [Nat.add_comm, Nat.add_mul_mod_self_right, Nat.mod_eq_of_lt h2]
  have h6 : (j2 * ch + c3) % ch = c3 := by
    rw [Nat.add_comm, Nat.add_mul_mod_self_right, Nat.mod_eq_of_lt h3]
  have hc : c2 = c3 := by rw [← h5, ← h6, h4]
  refine ⟨hc, ?_⟩
  have hmul : j * ch = j2 * ch := by omega
  have hch : 0 < ch := lt_of_le_of_lt (Nat.zero_le c2) h2
  exact Nat.eq_of_mul_eq_mul_right hch hmul

theorem filterChannelGo_fst_buf (a b : List ℚ) (ch c : ℕ) (src : List ℚ)
    (base : ℕ) (k : ℕ) :
    ∀ (i : ℕ) (vc : List ℚ) (buf buf2 : List ℚ),
      (filterChannelGo a b ch c src base k i vc buf).1 =
        (filterChannelGo a b ch c src base k i vc buf2).1 := by
  induction k with
  | zero => intro i vc buf buf2; rfl
  | succ k ih => intro i vc buf buf2; exact ih (i + 1) _ _ _

theorem filterChannelGo_len (a b : List ℚ) (ch c : ℕ) (src : List ℚ)
    (base : ℕ) (k : ℕ) :
    ∀ (i : ℕ) (vc : List ℚ) (buf : List ℚ),
      (filterChannelGo a b ch c src base k i vc buf).2.length = buf.length := by
  induction k with
  | zero => intro i vc buf; rfl
  | succ k ih =>
    intro i vc buf
    rw [filterChannelGo, ih]
    exact List.length_set buf _ _

theorem filterChannelGo_congr (a b : List ℚ) (ch c : ℕ) (src src2 : List ℚ)
    (base : ℕ) (k : ℕ) :
    ∀ (i : ℕ) (vc : List ℚ) (buf : List ℚ),
      (∀ j, j < k → src.getD ((i + j) * ch + c) 0 = src2.getD ((i + j) * ch + c) 0) →
      filterChannelGo a b ch c src base k i vc buf =
        filterChannelGo a b ch c src2 base k i vc buf := by
  induction k with
  | zero => intro i vc buf _; rfl
  | succ k ih =>
    intro i vc buf h
    rw [filterChannelGo, filterChannelGo]
    have h0 : src.getD (i * ch + c) 0 = src2.getD (i * ch + c) 0 := by
      have := h 0 (Nat.succ_pos k)
      simpa using this
    rw [h0]
    exact ih (i + 1) _ _ (fun j hj => by
      have := h (j + 1) (by omega)
      simpa [Nat.add_assoc, Nat.add_comm, Nat.add_left_comm] using this)

theorem filterChannelGo_shift (a b : List ℚ) (ch c : ℕ) (src : List ℚ)
    (base : ℕ) (k : ℕ) :
    ∀ (i : ℕ) (vc : List ℚ) (buf : List ℚ),
      filterChannelGo a b ch c src base k (i + 1) vc buf =
        filterChannelGo a b ch c (src.drop ch) (base + ch) k i vc buf := by
  induction k with
  | zero => intro i vc buf; rfl
  | succ k ih =>
    intro i vc buf
    rw [filterChannelGo, filterChannelGo]
    have hread : src.getD ((i + 1) * ch + c) 0 = (src.drop ch).getD (i * ch + c) 0 := by
      rw [getD_drop]
      congr 1
      ring
    have hwrite : base + (i + 1) * ch + c = base + ch + i * ch + c := by ring
    rw [hread, hwrite]
    exact ih (i + 1) _ _

theorem filterChannelGo_split (a b : List ℚ) (ch c : ℕ) (hc : c < ch)
    (k1 k2 : ℕ) :
    ∀ (xs ys : List ℚ) (base : ℕ) (vc : List ℚ) (buf : List ℚ),
      xs.length = k1 * ch →
      filterChannelGo a b ch c (xs ++ ys) base (k1 + k2) 0 vc buf =
        filterChannelGo a b ch c ys (base + k1 * ch) k2 0
          (filterChannelGo a b ch c xs base k1 0 vc buf).1
          (filterChannelGo a b ch c xs base k1 0 vc buf).2 := by
  induction k1 with
  | zero =>
    intro xs ys base vc buf hlen
    have hxs : xs = [] := List.length_eq_zero.mp (by omega)
    subst hxs
    simp [filterChannelGo]
  | succ k1 ih =>
    intro xs ys base vc buf hlen
    have hchpos : 0 < ch := Nat.pos_of_ne_zero (by omega)
    rw [show k1 + 1 + k2 = (k1 + k2) + 1 from by ring]
    rw [filterChannelGo, filterChannelGo]
    have hcbound : 0 * ch + c < xs.length := by
      rw [hlen, Nat.zero_mul, Nat.zero_add]
      exact lt_of_lt_of_le hc (Nat.le_mul_of_pos_left ch (Nat.succ_pos k1))
    have hread : (xs ++ ys).getD (0 * ch + c) 0 = xs.getD (0 * ch + c) 0 :=
      getD_append_left 0 hcbound
    rw [hread]
    rw [filterChannelGo_shift, filterChannelGo_shift]
    have hdrop : (xs ++ ys).drop ch = xs.drop ch ++ ys := by
      rw [List.drop_append_of_le_length
        (by rw [hlen]; exact Nat.le_mul_of_pos_left ch (Nat.succ_pos k1))]
    have hdlen : (xs.drop ch).length = k1 * ch := by
      rw [List.length_drop, hlen, Nat.succ_mul]
      omega
    rw [hdrop, ih (xs.drop ch) ys (base + ch) _ _ hdlen]
    have hbase : base + ch + k1 * ch = base + (k1 + 1) * ch := by ring
    rw [hbase]

theorem filterChannelGo_set_comm (a b : List ℚ) (ch c : ℕ) (src : List ℚ)
    (base : ℕ) (k : ℕ) :
    ∀ (i : ℕ) (vc : List ℚ) (buf : List ℚ) (q : ℕ) (x : ℚ),
      (∀ j, j < k → q ≠ base + (i + j) * ch + c) →
      (filterChannelGo a b ch c src base k i vc (buf.set q x)).2 =
        ((filterChannelGo a b ch c src base k i vc buf).2).set q x := by
  induction k with
  | zero => intro i vc buf q x _; rfl
  | succ k ih =>
    intro i vc buf q x h
    rw [filterChannelGo, filterChannelGo]
    have hne : q ≠ base + i * ch + c := by
      have := h 0 (Nat.succ_pos k)
      simpa using this
    rw [List.set_comm _ _ _ hne]
    exact ih (i + 1) _ _ q x (fun j hj => by
      have := h (j + 1) (by omega)
      simpa [Nat.add_assoc, Nat.add_comm, Nat.add_left_comm] using this)

theorem filterChannelsGo_fst_len (a b : List ℚ) (cmap : List ℤ) (ch : ℕ)
    (src : List ℚ) (frames base : ℕ) (k : ℕ) :
    ∀ (c : ℕ) (v : List (List ℚ)) (buf : List ℚ),
      (filterChannelsGo a b cmap ch src frames base k c v buf).1.length = v.length := by
  induction k with
  | zero => intro c v buf; rfl
  | succ k ih =>
    intro c v buf
    rw [filterChannelsGo]
    by_cases hc : cmap.getD c 0 = EBUR128_UNUSED
    · rw [if_pos hc]; exact ih _ _ _
    · rw [if_neg hc, ih]
      exact List.length_set v _ _

theorem filterChannelsGo_snd_len (a b : List ℚ) (cmap : List ℤ) (ch : ℕ)
    (src : List ℚ) (frames base : ℕ) (k : ℕ) :
    ∀ (c : ℕ) (v : List (List ℚ)) (buf : List ℚ),
      (filterChannelsGo a b cmap ch src frames base k c v buf).2.length = buf.length := by
  induction k with
  | zero => intro c v buf; rfl
  | succ k ih =>
    intro c v buf
    rw [filterChannelsGo]
    by_cases hc : cmap.getD c 0 = EBUR128_UNUSED
    · rw [if_pos hc]; exact ih _ _ _
    · rw [if_neg hc, ih]
      exact filterChannelGo_len a b ch c src base frames 0 _ _

theorem filterChannelsGo_fst_buf (a b : List ℚ) (cmap : List ℤ) (ch : ℕ)
    (src : List ℚ) (frames base : ℕ) (k : ℕ) :
    ∀ (c : ℕ) (v : List (List ℚ)) (buf buf2 : List ℚ),
      (filterChannelsGo a b cmap ch src frames base k c v buf).1 =
        (filterChannelsGo a b cmap ch src frames base k c v buf2).1 := by
  induction k with
  | zero => intro c v buf buf2; rfl
  | succ k ih =>
    intro c v buf buf2
    rw [filterChannelsGo, filterChannelsGo]
    by_cases hc : cmap.getD c 0 = EBUR128_UNUSED
    · simp only [if_pos hc]; exact ih _ _ _ _
    · simp only [if_neg hc]
      rw [filterChannelGo_fst_buf a b ch c src base frames 0 (v.getD c []) buf buf2]
      exact ih _ _ _ _

theorem filterChannelsGo_set_lt (a b : List ℚ) (cmap : List ℤ) (ch : ℕ)
    (src : List ℚ) (frames base : ℕ) (k : ℕ) :
    ∀ (c c2 : ℕ) (v : List (List ℚ)) (buf : List ℚ) (x : List ℚ),
      c2 < c →
      filterChannelsGo a b cmap ch src frames base k c (v.set c2 x) buf =
        (((filterChannelsGo a b cmap ch src frames base k c v buf).1).set c2 x,
         (filterChannelsGo a b cmap ch src frames base k c v buf).2) := by
  induction k with
  | zero => intro c c2 v buf x h; rfl
  | succ k ih =>
    intro c c2 v buf x h
    rw [filterChannelsGo, filterChannelsGo]
    by_cases hc : cmap.getD c 0 = EBUR128_UNUSED
    · simp only [if_pos hc]
      exact ih _ _ _ _ _ (by omega)
    · simp only [if_neg hc]
      have hvc : (v.set c2 x).getD c [] = v.getD c [] :=
        getD_set_ne v x [] (by omega)
      rw [hvc]
      rw [List.set_comm _ _ _ (by omega : c2 ≠ c)]
      exact ih _ _ _ _ _ (by omega)

theorem filterChannelsGo_set_comm (a b : List ℚ) (cmap : List ℤ) (ch : ℕ)
    (src : List ℚ) (frames base : ℕ) (k : ℕ) :
    ∀ (c : ℕ) (v : List (List ℚ)) (buf : List ℚ) (q : ℕ) (x : ℚ),
      (∀ c3 j, c ≤ c3 → c3 < c + k → cmap.getD c3 0 ≠ EBUR128_UNUSED →
        j < frames → q ≠ base + j * ch + c3) →
      (filterChannelsGo a b cmap ch src frames base k c v (buf.set q x)).2 =
        ((filterChannelsGo a b cmap ch src frames base k c v buf).2).set q x := by
  induction k with
  | zero => intro c v buf q x _; rfl
  | succ k ih =>
    intro c v buf q x h
    rw [filterChannelsGo, filterChannelsGo]
    by_cases hc : cmap.getD c 0 = EBUR128_UNUSED
    · simp only [if_pos hc]
      exact ih _ _ _ _ _ (fun c3 j h1 h2 h3 h4 => h c3 j (by omega) (by omega) h3 h4)
    · simp only [if_neg hc]
      rw [filterChannelGo_fst_buf a b ch c src base frames 0 (v.getD c [])
        (buf.set q x) buf]
      rw [filterChannelGo_set_comm a b ch c src base frames 0 (v.getD c []) buf q x
        (fun j hj => by
          have := h c j (le_refl c) (by omega) hc hj
          simpa using this)]
      exact ih _ _ _ _ _ (fun c3 j h1 h2 h3 h4 => h c3 j (by omega) (by omega) h3 h4)

theorem filterChannelsGo_congr (a b : List ℚ) (cmap : List ℤ) (ch : ℕ)
    (src src2 : List ℚ) (frames base : ℕ) (k : ℕ) :
    ∀ (c : ℕ) (v : List (List ℚ)) (buf : List ℚ),
      (∀ c3 j, c ≤ c3 → c3 < c + k → cmap.getD c3 0 ≠ EBUR128_UNUSED →
        j < frames → src.getD (j * ch + c3) 0 = src2.getD (j * ch + c3) 0) →
      filterChannelsGo a b cmap ch src frames base k c v buf =
        filterChannelsGo a b cmap ch src2 frames base k c v buf := by
  induction k with
  | zero => intro c v buf _; rfl
  | succ k ih =>
    intro c v buf h
    rw [filterChannelsGo, filterChannelsGo]
    by_cases hc : cmap.getD c 0 = EBUR128_UNUSED
    · simp only [if_pos hc]
      exact ih _ _ _ (fun c3 j h1 h2 h3 h4 => h c3 j (by omega) (by omega) h3 h4)
    · simp only [if_neg hc]
      rw [filterChannelGo_congr a b ch c src src2 base frames 0 (v.getD c []) buf
        (fun j hj => by
          have := h c j (le_refl c) (by omega) hc hj
          simpa using this)]
      exact ih _ _ _ (fun c3 j h1 h2 h3 h4 => h c3 j (by omega) (by omega) h3 h4)

theorem filterChannelsGo_fst_getD_lt (a b : List ℚ) (cmap : List ℤ) (ch : ℕ)
    (src : List ℚ) (frames base : ℕ) (k : ℕ) :
    ∀ (c c2 : ℕ) (v : List (List ℚ)) (buf : List ℚ), c2 < c →
      (filterChannelsGo a b cmap ch src frames base k c v buf).1.getD c2 [] =
        v.getD c2 [] := by
  induction k with
  | zero => intro c c2 v buf _; rfl
  | succ k ih =>
    intro c c2 v buf h
    rw [filterChannelsGo]
    by_cases hc : cmap.getD c 0 = EBUR128_UNUSED
    · simp only [if_pos hc]
      exact ih _ _ _ _ (by omega)
    · simp only [if_neg hc]
      rw [ih (c + 1) c2 _ _ (by omega)]
      exact getD_set_ne v _ [] (by omega)

theorem filterChannelsGo_after_go_comm (a b : List ℚ) (cmap : List ℤ) (ch : ℕ)
    (src srcg : List ℚ) (frames base : ℕ) (k c : ℕ) (cg baseg : ℕ) (kf : ℕ) :
    ∀ (i : ℕ) (vc : List ℚ) (v : List (List ℚ)) (B : List ℚ),
      (∀ j2, j2 < kf → ∀ c3 j, c ≤ c3 → c3 < c + k → cmap.getD c3 0 ≠ EBUR128_UNUSED →
        j < frames → baseg + (i + j2) * ch + cg ≠ base + j * ch + c3) →
      (filterChannelsGo a b cmap ch src frames base k c v
        ((filterChannelGo a b ch cg srcg baseg kf i vc B).2)).2 =
      (filterChannelGo a b ch cg srcg baseg kf i vc
        ((filterChannelsGo a b cmap ch src frames base k c v B).2)).2 := by
  induction kf with
  | zero => intro i vc v B _; rfl
  | succ kf ih =>
    intro i vc v B h
    rw [filterChannelGo, filterChannelGo]
    rw [ih (i + 1) _ v _ (fun j2 hj2 c3 j h1 h2 h3 h4 => by
      have := h (j2 + 1) (by omega) c3 j h1 h2 h3 h4
      simpa [Nat.add_assoc, Nat.add_comm, Nat.add_left_comm] using this)]
    rw [filterChannelsGo_set_comm a b cmap ch src frames base k c v B
      (baseg + i * ch + cg) _ (fun c3 j h1 h2 h3 h4 => by
        have := h 0 (Nat.succ_pos kf) c3 j h1 h2 h3 h4
        simpa using this)]

theorem filterChannelsGo_split (a b : List ℚ) (cmap : List ℤ) (ch : ℕ)
    (k1 k2 : ℕ) (xs ys : List ℚ) (hlen : xs.length = k1 * ch) (base : ℕ) (k : ℕ) :
    ∀ (c : ℕ) (v : List (List ℚ)) (buf : List ℚ),
      c + k ≤ ch → c + k ≤ v.length →
      filterChannelsGo a b cmap ch (xs ++ ys) (k1 + k2) base k c v buf =
        filterChannelsGo a b cmap ch ys k2 (base + k1 * ch) k c
          (filterChannelsGo a b cmap ch xs k1 base k c v buf).1
          (filterChannelsGo a b cmap ch xs k1 base k c v buf).2 := by
  induction k with
  | zero => intro c v buf _ _; rfl
  | succ k ih =>
    intro c v buf hck hv
    have hcch : c < ch := by omega
    by_cases hc : cmap.getD c 0 = EBUR128_UNUSED
    · simp only [filterChannelsGo, if_pos hc]
      exact ih (c + 1) v buf (by omega) (by omega)
    · simp only [filterChannelsGo, if_neg hc]
      rw [filterChannelGo_split a b ch c hcch k1 k2 xs ys base (v.getD c []) buf hlen]
      set q := filterChannelGo a b ch c xs base k1 0 (v.getD c []) buf with hq
      set W := filterChannelGo a b ch c ys (base + k1 * ch) k2 0 q.1 q.2 with hW
      rw [ih (c + 1) (v.set c W.1) W.2 (by omega) (by rw [List.length_set]; omega)]
      set R0 := filterChannelsGo a b cmap ch xs k1 base k (c + 1) v q.2 with hR0
      have hV1len : R0.1.length = v.length := by
        rw [hR0]; exact filterChannelsGo_fst_len a b cmap ch xs k1 base k (c + 1) v q.2
      have hsetlt1 : filterChannelsGo a b cmap ch xs k1 base k (c + 1)
          (v.set c W.1) W.2 =
          ((filterChannelsGo a b cmap ch xs k1 base k (c + 1) v W.2).1.set c W.1,
           (filterChannelsGo a b cmap ch xs k1 base k (c + 1) v W.2).2) :=
        filterChannelsGo_set_lt a b cmap ch xs k1 base k (c + 1) c v W.2 W.1 (by omega)
      have hsetlt2 : filterChannelsGo a b cmap ch xs k1 base k (c + 1)
          (v.set c q.1) q.2 = (R0.1.set c q.1, R0.2) := by
        rw [hR0]
        exact filterChannelsGo_set_lt a b cmap ch xs k1 base k (c + 1) c v q.2 q.1
          (by omega)
      have hfb : (filterChannelsGo a b cmap ch xs k1 base k (c + 1) v W.2).1 = R0.1 := by
        rw [hR0]
        exact filterChannelsGo_fst_buf a b cmap ch xs k1 base k (c + 1) v W.2 q.2
      rw [hsetlt1, hsetlt2]
      have hgetD : (R0.1.set c q.1).getD c [] = q.1 :=
        getD_set_self R0.1 c q.1 [] (by rw [hV1len]; omega)
      rw [hgetD, hfb]
      have hWfst : (filterChannelGo a b ch c ys (base + k1 * ch) k2 0 q.1 R0.2).1 =
          W.1 := by
        rw [hW]
        exact filterChannelGo_fst_buf a b ch c ys (base + k1 * ch) k2 0 q.1 R0.2 q.2
      rw [hWfst, List.set_set]
      congr 1
      rw [hW, hR0]
      exact filterChannelsGo_after_go_comm a b cmap ch xs ys k1 base k (c + 1) c
        (base + k1 * ch) k2 0 q.1 v q.2
        (fun j2 hj2 c3 j h1 h2 h3 h4 heq => by
          have hrw : base + k1 * ch + (0 + j2) * ch + c = base + (k1 + j2) * ch + c := by
            ring
          rw [hrw] at heq
          exact absurd (writePos_inj hcch (by omega) heq).1 (by omega))

theorem filter_float_prefix (s : Ebur128State ℚ) (xs ys : List ℚ) (frames : ℕ)
    (h : frames * s.channels ≤ xs.length) :
    s.filter_float (xs ++ ys) frames = s.filter_float xs frames := by
  rw [Ebur128State.filter_float, Ebur128State.filter_float]
  by_cases h0 : frames = 0
  · simp [h0]
  · have hx : ¬(frames = 0 ∨ xs.length < frames * s.channels) := by
      rw [not_or]
      exact ⟨h0, not_lt.mpr h⟩
    have hxy : ¬(frames = 0 ∨ (xs ++ ys).length < frames * s.channels) := by
      rw [not_or]
      refine ⟨h0, not_lt.mpr ?_⟩
      rw [List.length_append]
      omega
    rw [if_neg hx, if_neg hxy]
    rw [filterChannelsGo_congr s.a s.b s.channel_map s.channels (xs ++ ys) xs frames
      s.audio_data_index s.channels 0 s.v s.audio_data
      (fun c3 j h1 h2 h3 h4 => by
        refine getD_append_left 0 ?_
        calc j * s.channels + c3 < (j + 1) * s.channels := by
              rw [Nat.succ_mul]; omega
          _ ≤ frames * s.channels := Nat.mul_le_mul_right _ (by omega)
          _ ≤ xs.length := h)]

theorem filter_float_then (s : Ebur128State ℚ) (xs ys : List ℚ) (k1 k2 : ℕ)
    (hlen : xs.length = k1 * s.channels) (hk1 : k1 ≠ 0) (hk2 : k2 ≠ 0)
    (hlen2 : k2 * s.channels ≤ ys.length) (hv : s.channels ≤ s.v.length)
    (sMid : Ebur128State ℚ)
    (hMid_a : sMid.a = s.a) (hMid_b : sMid.b = s.b)
    (hMid_cm : sMid.channel_map = s.channel_map) (hMid_ch : sMid.channels = s.channels)
    (hMid_idx : sMid.audio_data_index = s.audio_data_index + k1 * s.channels)
    (hMid_v : sMid.v = (s.filter_float xs k1).1.v)
    (hMid_ad : sMid.audio_data = (s.filter_float xs k1).1.audio_data) :
    (s.filter_float (xs ++ ys) (k1 + k2)).1.v = (sMid.filter_float ys k2).1.v ∧
      (s.filter_float (xs ++ ys) (k1 + k2)).1.audio_data =
        (sMid.filter_float ys k2).1.audio_data ∧
      (s.filter_float (xs ++ ys) (k1 + k2)).2 = none ∧
      (s.filter_float xs k1).2 = none ∧ (sMid.filter_float ys k2).2 = none := by
  have hxok : ¬(k1 = 0 ∨ xs.length < k1 * s.channels) := by
    rw [not_or]
    exact ⟨hk1, not_lt.mpr (le_of_eq hlen.symm)⟩
  have hyok : ¬(k2 = 0 ∨ ys.length < k2 * sMid.channels) := by
    rw [not_or, hMid_ch]
    exact ⟨hk2, not_lt.mpr hlen2⟩
  have hxyok : ¬(k1 + k2 = 0 ∨ (xs ++ ys).length < (k1 + k2) * s.channels) := by
    rw [not_or, List.length_append]
    refine ⟨by omega, not_lt.mpr ?_⟩
    rw [Nat.add_mul, hlen]
    omega
  have hxv : (s.filter_float xs k1).1.v =
      (filterChannelsGo s.a s.b s.channel_map s.channels xs k1 s.audio_data_index
        s.channels 0 s.v s.audio_data).1 := by
    rw [Ebur128State.filter_float, if_neg hxok]
  have hxad : (s.filter_float xs k1).1.audio_data =
      (filterChannelsGo s.a s.b s.channel_map s.channels xs k1 s.audio_data_index
        s.channels 0 s.v s.audio_data).2 := by
    rw [Ebur128State.filter_float, if_neg hxok]
  have hsplit := filterChannelsGo_split s.a s.b s.channel_map s.channels k1 k2 xs ys
    hlen s.audio_data_index s.channels 0 s.v s.audio_data (by omega) (by omega)
  refine ⟨?_, ?_, ?_, ?_, ?_⟩
  · rw [Ebur128State.filter_float, Ebur128State.filter_float, if_neg hxyok,
      if_neg hyok]
    simp only [hsplit, hMid_a, hMid_b, hMid_cm, hMid_ch, hMid_idx, hMid_v, hMid_ad,
      hxv, hxad]
  · rw [Ebur128State.filter_float, Ebur128State.filter_float, if_neg hxyok,
      if_neg hyok]
    simp only [hsplit, hMid_a, hMid_b, hMid_cm, hMid_ch, hMid_idx, hMid_v, hMid_ad,
      hxv, hxad]
  · rw [Ebur128State.filter_float, if_neg hxyok]
  · rw [Ebur128State.filter_float, if_neg hxok]
  · rw [Ebur128State.filter_float, if_neg hyok]

theorem filter_float_fields (s : Ebur128State ℚ) (src : List ℚ) (frames : ℕ) :
    (s.filter_float src frames).1.mode = s.mode ∧
      (s.filter_float src frames).1.sample_rate = s.sample_rate ∧
      (s.filter_float src frames).1.channels = s.channels ∧
      (s.filter_float src frames).1.channel_map = s.channel_map ∧
      (s.filter_float src frames).1.a = s.a ∧
      (s.filter_float src frames).1.b = s.b ∧
      (s.filter_float src frames).1.audio_data_frames = s.audio_data_frames ∧
      (s.filter_float src frames).1.audio_data_index = s.audio_data_index ∧
      (s.filter_float src frames).1.needed_frames = s.needed_frames ∧
      (s.filter_float src frames).1.block_list = s.block_list ∧
      (s.filter_float src frames).1.short_term_block_list = s.short_term_block_list ∧
      (s.filter_float src frames).1.block_counter = s.block_counter ∧
      (s.filter_float src frames).1.short_term_frame_counter =
        s.short_term_frame_counter ∧
      (s.filter_float src frames).1.v.length = s.v.length ∧
      (s.filter_float src frames).1.audio_data.length = s.audio_data.length := by
  rw [Ebur128State.filter_float]
  by_cases hc : frames = 0 ∨ src.length < frames * s.channels
  · rw [if_pos hc]
    exact ⟨rfl, rfl, rfl, rfl, rfl, rfl, rfl, rfl, rfl, rfl, rfl, rfl, rfl, rfl, rfl⟩
  · rw [if_neg hc]
    refine ⟨rfl, rfl, rfl, rfl, rfl, rfl, rfl, rfl, rfl, rfl, rfl, rfl, rfl, ?_, ?_⟩
    · exact filterChannelsGo_fst_len s.a s.b s.channel_map s.channels src frames
        s.audio_data_index s.channels 0 s.v s.audio_data
    · exact filterChannelsGo_snd_len s.a s.b s.channel_map s.channels src frames
        s.audio_data_index s.channels 0 s.v s.audio_data

theorem calc_gating_block_fields (s : Ebur128State ℚ) (fpb : ℕ) :
    (s.calc_gating_block fpb).mode = s.mode ∧
      (s.calc_gating_block fpb).sample_rate = s.sample_rate ∧
      (s.calc_gating_block fpb).channels = s.channels ∧
      (s.calc_gating_block fpb).channel_map = s.channel_map ∧
      (s.calc_gating_block fpb).a = s.a ∧
      (s.calc_gating_block fpb).b = s.b ∧
      (s.calc_gating_block fpb).v = s.v ∧
      (s.calc_gating_block fpb).audio_data = s.audio_data ∧
      (s.calc_gating_block fpb).audio_data_frames = s.audio_data_frames ∧
      (s.calc_gating_block fpb).audio_data_index = s.audio_data_index ∧
      (s.calc_gating_block fpb).needed_frames = s.needed_frames ∧
      (s.calc_gating_block fpb).short_term_block_list = s.short_term_block_list ∧
      (s.calc_gating_block fpb).short_term_frame_counter =
        s.short_term_frame_counter := by
  rw [Ebur128State.calc_gating_block]
  by_cases hc : Ebur128State.ABS_THRESHOLD_ENERGY ≤ s.calcGatingBlockEnergy fpb
  · rw [if_pos hc]
    exact ⟨rfl, rfl, rfl, rfl, rfl, rfl, rfl, rfl, rfl, rfl, rfl, rfl, rfl⟩
  · rw [if_neg hc]
    exact ⟨rfl, rfl, rfl, rfl, rfl, rfl, rfl, rfl, rfl, rfl, rfl, rfl, rfl⟩

theorem afterWindowLRA_fields (y : Ebur128State ℚ) (n : ℕ) :
    (afterWindowLRA y n).mode = y.mode ∧
      (afterWindowLRA y n).sample_rate = y.sample_rate ∧
      (afterWindowLRA y n).channels = y.channels ∧
      (afterWindowLRA y n).channel_map = y.channel_map ∧
      (afterWindowLRA y n).a = y.a ∧
      (afterWindowLRA y n).b = y.b ∧
      (afterWindowLRA y n).v = y.v ∧
      (afterWindowLRA y n).audio_data = y.audio_data ∧
      (afterWindowLRA y n).audio_data_frames = y.audio_data_frames ∧
      (afterWindowLRA y n).needed_frames = y.sample_rate / 5 ∧
      (afterWindowLRA y n).block_list = y.block_list ∧
      (afterWindowLRA y n).block_counter = y.block_counter := by
  simp only [afterWindowLRA]
  by_cases hL : y.mode &&& EBUR128_MODE_LRA = EBUR128_MODE_LRA <;>
    simp [hL] <;> split_ifs <;> (try split) <;> simp_all

theorem afterWindow_fields (s1 : Ebur128State ℚ) (n : ℕ) :
    (afterWindow s1 n).mode = s1.mode ∧
      (afterWindow s1 n).sample_rate = s1.sample_rate ∧
      (afterWindow s1 n).channels = s1.channels ∧
      (afterWindow s1 n).channel_map = s1.channel_map ∧
      (afterWindow s1 n).a = s1.a ∧
      (afterWindow s1 n).b = s1.b ∧
      (afterWindow s1 n).v = s1.v ∧
      (afterWindow s1 n).audio_data = s1.audio_data ∧
      (afterWindow s1 n).audio_data_frames = s1.audio_data_frames ∧
      (afterWindow s1 n).needed_frames = s1.sample_rate / 5 := by
  have hg := calc_gating_block_fields
    { s1 with audio_data_index := s1.audio_data_index + n * s1.channels }
    (s1.sample_rate / 5 * 2)
  simp only [afterWindow]
  by_cases hI : s1.mode &&& EBUR128_MODE_I = EBUR128_MODE_I
  · have hl := afterWindowLRA_fields
      (Ebur128State.calc_gating_block
        { s1 with audio_data_index := s1.audio_data_index + n * s1.channels }
        (s1.sample_rate / 5 * 2)) n
    simp only [if_pos hI]
    refine ⟨?_, ?_, ?_, ?_, ?_, ?_, ?_, ?_, ?_, ?_⟩ <;>
      simp_all
  · have hl := afterWindowLRA_fields
      { s1 with audio_data_index := s1.audio_data_index + n * s1.channels } n
    simp only [if_neg hI]
    refine ⟨?_, ?_, ?_, ?_, ?_, ?_, ?_, ?_, ?_, ?_⟩ <;>
      simp_all

theorem afterPartial_fields (s1 : Ebur128State ℚ) (n : ℕ) :
    (afterPartial s1 n).mode = s1.mode ∧
      (afterPartial s1 n).sample_rate = s1.sample_rate ∧
      (afterPartial s1 n).channels = s1.channels ∧
      (afterPartial s1 n).channel_map = s1.channel_map ∧
      (afterPartial s1 n).a = s1.a ∧
      (afterPartial s1 n).b = s1.b ∧
      (afterPartial s1 n).v = s1.v ∧
      (afterPartial s1 n).audio_data = s1.audio_data ∧
      (afterPartial s1 n).audio_data_frames = s1.audio_data_frames ∧
      (afterPartial s1 n).needed_frames = s1.needed_frames - n ∧
      (afterPartial s1 n).block_list = s1.block_list ∧
      (afterPartial s1 n).block_counter = s1.block_counter ∧
      (afterPartial s1 n).audio_data_index =
        s1.audio_data_index + n * s1.channels := by
  simp only [afterPartial]
  by_cases hL : s1.mode &&& EBUR128_MODE_LRA = EBUR128_MODE_LRA <;> simp [hL]

theorem afterPartial_shift (s : Ebur128State ℚ) (p t u nX nY : ℕ)
    (hidx : p + nX * s.channels = s.audio_data_index + nY * s.channels)
    (hL : s.mode &&& EBUR128_MODE_LRA = EBUR128_MODE_LRA →
      t + nX = s.short_term_frame_counter + nY)
    (hnL : ¬s.mode &&& EBUR128_MODE_LRA = EBUR128_MODE_LRA →
      t = s.short_term_frame_counter)
    (hneed : u - nX = s.needed_frames - nY) :
    afterPartial { s with audio_data_index := p,
                          short_term_frame_counter := t,
                          needed_frames := u } nX = afterPartial s nY := by
  simp only [afterPartial]
  by_cases hm : s.mode &&& EBUR128_MODE_LRA = EBUR128_MODE_LRA
  · simp [hm, hidx, hL hm, hneed]
  · simp [hm, hidx, hnL hm, hneed]

theorem afterPartial_stbl (s1 : Ebur128State ℚ) (n : ℕ) :
    (afterPartial s1 n).short_term_block_list = s1.short_term_block_list := by
  simp only [afterPartial]
  by_cases hL : s1.mode &&& EBUR128_MODE_LRA = EBUR128_MODE_LRA <;> simp [hL]

theorem afterPartial_stfc (s1 : Ebur128State ℚ) (n : ℕ) :
    (afterPartial s1 n).short_term_frame_counter =
      (if s1.mode &&& EBUR128_MODE_LRA = EBUR128_MODE_LRA then
        s1.short_term_frame_counter + n else s1.short_term_frame_counter) := by
  simp only [afterPartial]
  by_cases hL : s1.mode &&& EBUR128_MODE_LRA = EBUR128_MODE_LRA <;> simp [hL]

theorem energy_shortterm_update (x : Ebur128State ℚ) (w u : ℕ) :
    ({ x with short_term_frame_counter := w,
              needed_frames := u } : Ebur128State ℚ).energy_shortterm =
      x.energy_shortterm := rfl

theorem energy_shortterm_update1 (x : Ebur128State ℚ) (w : ℕ) :
    ({ x with short_term_frame_counter := w } : Ebur128State ℚ).energy_shortterm =
      x.energy_shortterm := rfl

theorem calc_gating_block_update (x : Ebur128State ℚ) (w u f : ℕ) :
    Ebur128State.calc_gating_block
        { x with short_term_frame_counter := w, needed_frames := u } f =
      { x.calc_gating_block f with short_term_frame_counter := w,
                                   needed_frames := u } := by
  have he : Ebur128State.calcGatingBlockEnergy
      { x with short_term_frame_counter := w, needed_frames := u } f =
        x.calcGatingBlockEnergy f := rfl
  rw [Ebur128State.calc_gating_block, Ebur128State.calc_gating_block]
  simp only [he]
  by_cases hc : Ebur128State.ABS_THRESHOLD_ENERGY ≤ x.calcGatingBlockEnergy f
  · simp [hc]
  · simp [hc]

theorem afterWindowLRA_shift (y : Ebur128State ℚ) (t u nX nY : ℕ)
    (hL : y.mode &&& EBUR128_MODE_LRA = EBUR128_MODE_LRA →
      t + nX = y.short_term_frame_counter + nY)
    (hnL : ¬y.mode &&& EBUR128_MODE_LRA = EBUR128_MODE_LRA →
      t = y.short_term_frame_counter) :
    afterWindowLRA { y with short_term_frame_counter := t,
                            needed_frames := u } nX = afterWindowLRA y nY := by
  simp only [afterWindowLRA]
  by_cases hm : y.mode &&& EBUR128_MODE_LRA = EBUR128_MODE_LRA
  · have h1 := hL hm
    by_cases hsr : y.short_term_frame_counter + nY = y.sample_rate * 3
    · rcases hcase : y.energy_shortterm with _ | e <;>
        simp [hm, h1, hsr, energy_shortterm_update, energy_shortterm_update1, hcase]
    · simp [hm, h1, hsr]
  · have h1 := hnL hm
    simp [hm, h1]

theorem afterWindow_shift (s : Ebur128State ℚ) (p t u nX nY : ℕ)
    (hidx : p + nX * s.channels = s.audio_data_index + nY * s.channels)
    (hL : s.mode &&& EBUR128_MODE_LRA = EBUR128_MODE_LRA →
      t + nX = s.short_term_frame_counter + nY)
    (hnL : ¬s.mode &&& EBUR128_MODE_LRA = EBUR128_MODE_LRA →
      t = s.short_term_frame_counter) :
    afterWindow { s with audio_data_index := p,
                         short_term_frame_counter := t,
                         needed_frames := u } nX = afterWindow s nY := by
  by_cases hm : s.mode &&& EBUR128_MODE_LRA = EBUR128_MODE_LRA <;>
    by_cases hI : s.mode &&& EBUR128_MODE_I = EBUR128_MODE_I
  · simp only [afterWindow]
    simp [hm, hI, hidx]
    rw [calc_gating_block_update { s with audio_data_index := s.audio_data_index + nY * s.channels } t u
      (s.sample_rate / 5 * 2)]
    have hf := calc_gating_block_fields
      { s with audio_data_index := s.audio_data_index + nY * s.channels }
      (s.sample_rate / 5 * 2)
    refine afterWindowLRA_shift
      (Ebur128State.calc_gating_block { s with audio_data_index := s.audio_data_index + nY * s.channels }
        (s.sample_rate / 5 * 2)) t u nX nY ?_ ?_
    · intro _
      rw [hf.2.2.2.2.2.2.2.2.2.2.2.2]
      exact hL hm
    · intro hcon
      rw [hf.1] at hcon
      exact absurd hm hcon
  · simp only [afterWindow]
    simp [hm, hI, hidx]
    refine afterWindowLRA_shift
      { s with audio_data_index := s.audio_data_index + nY * s.channels } t u nX nY ?_ ?_
    · intro _
      exact hL hm
    · intro hcon
      exact absurd hm hcon
  · simp only [afterWindow]
    simp [hm, hI, hidx, hnL hm]
    rw [calc_gating_block_update { s with audio_data_index := s.audio_data_index + nY * s.channels }
      s.short_term_frame_counter u (s.sample_rate / 5 * 2)]
    have hf := calc_gating_block_fields
      { s with audio_data_index := s.audio_data_index + nY * s.channels }
      (s.sample_rate / 5 * 2)
    refine afterWindowLRA_shift
      (Ebur128State.calc_gating_block { s with audio_data_index := s.audio_data_index + nY * s.channels }
        (s.sample_rate / 5 * 2)) s.short_term_frame_counter u nX nY ?_ ?_
    · intro hcon
      rw [hf.1] at hcon
      exact absurd hcon hm
    · intro _
      exact hf.2.2.2.2.2.2.2.2.2.2.2.2.symm
  · simp only [afterWindow]
    simp [hm, hI, hidx, hnL hm]
    refine afterWindowLRA_shift
      { s with audio_data_index := s.audio_data_index + nY * s.channels } s.short_term_frame_counter u nX nY ?_ ?_
    · intro hcon
      exact absurd hcon hm
    · intro _
      rfl

theorem addFramesGo_inv :
    ∀ (n : ℕ) (s : Ebur128State ℚ) (src : List ℚ),
      5 ≤ s.sample_rate → 1 ≤ s.needed_frames → src.length = n * s.channels →
      (addFramesGo s src n).2 = none ∧
        (addFramesGo s src n).1.sample_rate = s.sample_rate ∧
        (addFramesGo s src n).1.channels = s.channels ∧
        1 ≤ (addFramesGo s src n).1.needed_frames ∧
        (addFramesGo s src n).1.v.length = s.v.length := by
  intro n
  induction n using Nat.strong_induction_on with
  | _ n ih =>
    intro s src h5 h1 hlen
    rw [addFramesGo]
    by_cases h0 : n = 0
    · rw [dif_pos h0]
      exact ⟨rfl, rfl, rfl, h1, rfl⟩
    · rw [dif_neg h0, dif_neg (by omega : ¬s.needed_frames = 0)]
      by_cases hle : s.needed_frames ≤ n
      · rw [dif_pos hle]
        have hok : ¬(s.needed_frames = 0 ∨ src.length < s.needed_frames * s.channels) := by
          rw [not_or, hlen]
          exact ⟨by omega, not_lt.mpr (Nat.mul_le_mul_right _ hle)⟩
        have hff := filter_float_fields s src s.needed_frames
        simp only [Ebur128State.filter_float, if_neg hok]
        set s1 : Ebur128State ℚ :=
          { s with
              v := (filterChannelsGo s.a s.b s.channel_map s.channels src
                      s.needed_frames s.audio_data_index s.channels 0 s.v
                      s.audio_data).1,
              audio_data := (filterChannelsGo s.a s.b s.channel_map s.channels src
                      s.needed_frames s.audio_data_index s.channels 0 s.v
                      s.audio_data).2 }
            with hs1
        have haw := afterWindow_fields s1 s.needed_frames
        have hrec := ih (n - s.needed_frames) (by omega) (afterWindow s1 s.needed_frames)
          (src.drop (s.needed_frames * s.channels))
          (by rw [haw.2.1]; exact h5)
          (by
            rw [haw.2.2.2.2.2.2.2.2.2]
            show 1 ≤ s.sample_rate / 5
            omega)
          (by
            rw [List.length_drop, hlen, haw.2.2.1]
            show n * s.channels - s.needed_frames * s.channels =
              (n - s.needed_frames) * s.channels
            rw [Nat.sub_mul])
        refine ⟨hrec.1, ?_, ?_, hrec.2.2.2.1, ?_⟩
        · rw [hrec.2.1, haw.2.1]
        · rw [hrec.2.2.1, haw.2.2.1]
        · rw [hrec.2.2.2.2, haw.2.2.2.2.2.2.1]
          simp [hs1]
          exact filterChannelsGo_fst_len s.a s.b s.channel_map s.channels src
            s.needed_frames s.audio_data_index s.channels 0 s.v s.audio_data
      · rw [dif_neg hle]
        have hok : ¬(n = 0 ∨ src.length < n * s.channels) := by
          rw [not_or, hlen]
          exact ⟨h0, not_lt.mpr (le_refl _)⟩
        simp only [Ebur128State.filter_float, if_neg hok]
        have hap := afterPartial_fields
          { s with
              v := (filterChannelsGo s.a s.b s.channel_map s.channels src
                      n s.audio_data_index s.channels 0 s.v s.audio_data).1,
              audio_data := (filterChannelsGo s.a s.b s.channel_map s.channels src
                      n s.audio_data_index s.channels 0 s.v s.audio_data).2 } n
        refine ⟨trivial, hap.2.1, hap.2.2.1, ?_, ?_⟩
        · rw [hap.2.2.2.2.2.2.2.2.2.1]
          show 1 ≤ s.needed_frames - n
          omega
        · rw [hap.2.2.2.2.2.2.1]
          exact filterChannelsGo_fst_len s.a s.b s.channel_map s.channels src
            n s.audio_data_index s.channels 0 s.v s.audio_data

theorem filter_split_shape (s : Ebur128State ℚ) (src1 src2 : List ℚ) (n k2 : ℕ)
    (sA : Ebur128State ℚ) (hsA : sA = afterPartial (s.filter_float src1 n).1 n)
    (hlen1 : src1.length = n * s.channels) (hn : n ≠ 0) (hk2 : k2 ≠ 0)
    (hlen2 : k2 * s.channels ≤ src2.length) (hv : s.channels ≤ s.v.length) :
    (s.filter_float (src1 ++ src2) (n + k2)).1 =
      { (sA.filter_float src2 k2).1 with
        audio_data_index := s.audio_data_index,
        short_term_frame_counter := s.short_term_frame_counter,
        needed_frames := s.needed_frames } ∧
      (s.filter_float (src1 ++ src2) (n + k2)).2 = none ∧
      (sA.filter_float src2 k2).2 = none ∧
      sA.needed_frames = s.needed_frames - n ∧
      sA.channels = s.channels ∧
      (sA.filter_float src2 k2).1.channels = s.channels ∧
      (sA.filter_float src2 k2).1.audio_data_index =
        s.audio_data_index + n * s.channels ∧
      (sA.filter_float src2 k2).1.mode = s.mode ∧
      (sA.filter_float src2 k2).1.short_term_frame_counter =
        (if s.mode &&& EBUR128_MODE_LRA = EBUR128_MODE_LRA then
          s.short_term_frame_counter + n else s.short_term_frame_counter) ∧
      (sA.filter_float src2 k2).1.needed_frames = s.needed_frames - n := by
  subst hsA
  have hff1 := filter_float_fields s src1 n
  have hap := afterPartial_fields (s.filter_float src1 n).1 n
  have hstfc := afterPartial_stfc (s.filter_float src1 n).1 n
  have hstbl := afterPartial_stbl (s.filter_float src1 n).1 n
  have hMid_ch : (afterPartial (s.filter_float src1 n).1 n).channels = s.channels :=
    hap.2.2.1.trans hff1.2.2.1
  have hMid_idx : (afterPartial (s.filter_float src1 n).1 n).audio_data_index =
      s.audio_data_index + n * s.channels := by
    rw [hap.2.2.2.2.2.2.2.2.2.2.2.2, hff1.2.2.2.2.2.2.2.1, hff1.2.2.1]
  have hMid_need : (afterPartial (s.filter_float src1 n).1 n).needed_frames =
      s.needed_frames - n := by
    rw [hap.2.2.2.2.2.2.2.2.2.1, hff1.2.2.2.2.2.2.2.2.1]
  have hMid_stfc : (afterPartial (s.filter_float src1 n).1 n).short_term_frame_counter =
      (if s.mode &&& EBUR128_MODE_LRA = EBUR128_MODE_LRA then
        s.short_term_frame_counter + n else s.short_term_frame_counter) := by
    rw [hstfc, hff1.1, hff1.2.2.2.2.2.2.2.2.2.2.2.2.1]
  have hffG := filter_float_fields (afterPartial (s.filter_float src1 n).1 n) src2 k2
  have hthen := filter_float_then s src1 src2 n k2 hlen1 hn hk2 hlen2 hv
    (afterPartial (s.filter_float src1 n).1 n)
    (hap.2.2.2.2.1.trans hff1.2.2.2.2.1)
    (hap.2.2.2.2.2.1.trans hff1.2.2.2.2.2.1)
    (hap.2.2.2.1.trans hff1.2.2.2.1)
    hMid_ch hMid_idx
    hap.2.2.2.2.2.2.1
    hap.2.2.2.2.2.2.2.1
  have hffF := filter_float_fields s (src1 ++ src2) (n + k2)
  refine ⟨?_, hthen.2.2.1, hthen.2.2.2.2, hMid_need, hMid_ch,
    hffG.2.2.1.trans hMid_ch,
    hffG.2.2.2.2.2.2.2.1.trans hMid_idx,
    hffG.1.trans (hap.1.trans hff1.1),
    hffG.2.2.2.2.2.2.2.2.2.2.2.2.1.trans hMid_stfc,
    hffG.2.2.2.2.2.2.2.2.1.trans hMid_need⟩
  apply Ebur128State.ext <;>
    simp [hffF, hffG, hap, hff1, hthen, hstbl]

theorem addFramesGo_append :
    ∀ (n : ℕ) (s : Ebur128State ℚ) (src1 src2 : List ℚ) (m : ℕ),
      5 ≤ s.sample_rate → 1 ≤ s.needed_frames → 1 ≤ s.channels →
      s.channels ≤ s.v.length →
      src1.length = n * s.channels → src2.length = m * s.channels →
      addFramesGo s (src1 ++ src2) (n + m) =
        addFramesGo (addFramesGo s src1 n).1 src2 m := by
  intro n
  induction n using Nat.strong_induction_on with
  | _ n ih =>
    intro s src1 src2 m h5 h1 hch hv hlen1 hlen2
    by_cases h0 : n = 0
    · subst h0
      have hsrc1 : src1 = [] := List.length_eq_zero.mp (by omega)
      subst hsrc1
      have hfirst : addFramesGo s ([] : List ℚ) 0 = (s, none) := by
        rw [addFramesGo, dif_pos rfl]
      rw [hfirst, List.nil_append, Nat.zero_add]
    · have hneed0 : ¬s.needed_frames = 0 := by omega
      by_cases hle : s.needed_frames ≤ n
      · -- the first 400/200 ms window is entirely inside the first chunk
        have hffok : ¬(s.needed_frames = 0 ∨
            src1.length < s.needed_frames * s.channels) := by
          rw [not_or, hlen1]
          exact ⟨hneed0, not_lt.mpr (Nat.mul_le_mul_right _ hle)⟩
        have hffnone : (s.filter_float src1 s.needed_frames).2 = none := by
          rw [Ebur128State.filter_float, if_neg hffok]
        have hXeq : s.filter_float src1 s.needed_frames =
            ((s.filter_float src1 s.needed_frames).1, none) := by
          rw [← hffnone]
        have hpre : s.filter_float (src1 ++ src2) s.needed_frames =
            s.filter_float src1 s.needed_frames :=
          filter_float_prefix s src1 src2 s.needed_frames
            (by rw [hlen1]; exact Nat.mul_le_mul_right _ hle)
        have hL : addFramesGo s (src1 ++ src2) (n + m) =
            addFramesGo
              (afterWindow (s.filter_float src1 s.needed_frames).1 s.needed_frames)
              ((src1 ++ src2).drop (s.needed_frames * s.channels))
              (n + m - s.needed_frames) := by
          conv_lhs => rw [addFramesGo]
          rw [dif_neg (by omega : ¬n + m = 0), dif_neg hneed0,
            dif_pos (by omega : s.needed_frames ≤ n + m), hpre, hXeq]
        have hR1 : addFramesGo s src1 n =
            addFramesGo
              (afterWindow (s.filter_float src1 s.needed_frames).1 s.needed_frames)
              (src1.drop (s.needed_frames * s.channels)) (n - s.needed_frames) := by
          conv_lhs => rw [addFramesGo]
          rw [dif_neg h0, dif_neg hneed0, dif_pos hle, hXeq]
        have hdrop : (src1 ++ src2).drop (s.needed_frames * s.channels) =
            src1.drop (s.needed_frames * s.channels) ++ src2 :=
          List.drop_append_of_le_length
            (by rw [hlen1]; exact Nat.mul_le_mul_right _ hle)
        have hff := filter_float_fields s src1 s.needed_frames
        have haw := afterWindow_fields (s.filter_float src1 s.needed_frames).1
          s.needed_frames
        have hrec := ih (n - s.needed_frames) (by omega)
          (afterWindow (s.filter_float src1 s.needed_frames).1 s.needed_frames)
          (src1.drop (s.needed_frames * s.channels)) src2 m
          (by rw [haw.2.1, hff.2.1]; exact h5)
          (by
            rw [haw.2.2.2.2.2.2.2.2.2, hff.2.1]
            show 1 ≤ s.sample_rate / 5
            omega)
          (by rw [haw.2.2.1, hff.2.2.1]; exact hch)
          (by
            rw [haw.2.2.1, hff.2.2.1, haw.2.2.2.2.2.2.1]
            calc s.channels ≤ s.v.length := hv
              _ = (s.filter_float src1 s.needed_frames).1.v.length :=
                  hff.2.2.2.2.2.2.2.2.2.2.2.2.2.1.symm)
          (by
            rw [List.length_drop, hlen1, haw.2.2.1, hff.2.2.1]
            show n * s.channels - s.needed_frames * s.channels =
              (n - s.needed_frames) * s.channels
            rw [Nat.sub_mul])
          (by rw [haw.2.2.1, hff.2.2.1]; exact hlen2)
        rw [hL, hdrop, show n + m - s.needed_frames = (n - s.needed_frames) + m
          from by omega, hrec, hR1]
      · -- the first chunk ends before the current window is complete
        by_cases hm0 : m = 0
        · subst hm0
          have hsrc2 : src2 = [] := List.length_eq_zero.mp (by omega)
          subst hsrc2
          have hsecond : addFramesGo (addFramesGo s src1 n).1 ([] : List ℚ) 0 =
              ((addFramesGo s src1 n).1, none) := by
            rw [addFramesGo, dif_pos rfl]
          rw [List.append_nil, Nat.add_zero, hsecond]
          have hinv := addFramesGo_inv n s src1 h5 h1 hlen1
          rw [← hinv.1]
        · -- the first call lands in the partial branch
          have hffok1 : ¬(n = 0 ∨ src1.length < n * s.channels) := by
            rw [not_or, hlen1]
            exact ⟨h0, lt_irrefl _⟩
          have hffnone1 : (s.filter_float src1 n).2 = none := by
            rw [Ebur128State.filter_float, if_neg hffok1]
          have hXeq1 : s.filter_float src1 n = ((s.filter_float src1 n).1, none) := by
            rw [← hffnone1]
          have hR1 : addFramesGo s src1 n =
              (afterPartial (s.filter_float src1 n).1 n, none) := by
            conv_lhs => rw [addFramesGo]
            rw [dif_neg h0, dif_neg hneed0, dif_neg hle, hXeq1]
          have hsAneed :
              (afterPartial (s.filter_float src1 n).1 n).needed_frames =
                s.needed_frames - n := by
            rw [(afterPartial_fields (s.filter_float src1 n).1 n).2.2.2.2.2.2.2.2.2.1,
              (filter_float_fields s src1 n).2.2.2.2.2.2.2.2.1]
          have hsAch : (afterPartial (s.filter_float src1 n).1 n).channels =
              s.channels :=
            (afterPartial_fields (s.filter_float src1 n).1 n).2.2.1.trans
              (filter_float_fields s src1 n).2.2.1
          by_cases hble : s.needed_frames ≤ n + m
          · -- the window completes inside the second chunk
            have hsplit := filter_split_shape s src1 src2 n (s.needed_frames - n)
              (afterPartial (s.filter_float src1 n).1 n) rfl hlen1 h0
              (by omega)
              (by
                rw [hlen2]
                exact Nat.mul_le_mul_right _ (by omega))
              hv
            rw [show n + (s.needed_frames - n) = s.needed_frames from by omega]
              at hsplit
            have hFeq : s.filter_float (src1 ++ src2) s.needed_frames =
                ((s.filter_float (src1 ++ src2) s.needed_frames).1, none) := by
              rw [← hsplit.2.1]
            have hGeq : (afterPartial (s.filter_float src1 n).1 n).filter_float src2
                  (s.needed_frames - n) =
                (((afterPartial (s.filter_float src1 n).1 n).filter_float src2
                  (s.needed_frames - n)).1, none) := by
              rw [← hsplit.2.2.1]
            have hL3 : addFramesGo s (src1 ++ src2) (n + m) =
                addFramesGo
                  (afterWindow (s.filter_float (src1 ++ src2) s.needed_frames).1
                    s.needed_frames)
                  ((src1 ++ src2).drop (s.needed_frames * s.channels))
                  (n + m - s.needed_frames) := by
              conv_lhs => rw [addFramesGo]
              rw [dif_neg (by omega : ¬n + m = 0), dif_neg hneed0, dif_pos hble, hFeq]
            have hR2 : addFramesGo (afterPartial (s.filter_float src1 n).1 n) src2 m =
                addFramesGo
                  (afterWindow
                    (((afterPartial (s.filter_float src1 n).1 n).filter_float src2
                      (s.needed_frames - n)).1)
                    (s.needed_frames - n))
                  (src2.drop ((s.needed_frames - n) *
                    (afterPartial (s.filter_float src1 n).1 n).channels))
                  (m - (s.needed_frames - n)) := by
              conv_lhs => rw [addFramesGo]
              rw [dif_neg hm0, hsAneed,
                dif_neg (by omega : ¬s.needed_frames - n = 0),
                dif_pos (by omega : s.needed_frames - n ≤ m), hGeq]
            rw [hL3, hR1, hR2]
            have hdrop : (src1 ++ src2).drop (s.needed_frames * s.channels) =
                src2.drop ((s.needed_frames - n) *
                  (afterPartial (s.filter_float src1 n).1 n).channels) := by
              rw [hsAch,
                show s.needed_frames * s.channels =
                  src1.length + (s.needed_frames - n) * s.channels from by
                    rw [hlen1, ← Nat.add_mul]
                    congr 1
                    omega,
                List.drop_append]
            have hstate : afterWindow (s.filter_float (src1 ++ src2)
                  s.needed_frames).1 s.needed_frames =
                afterWindow (((afterPartial (s.filter_float src1 n).1 n).filter_float
                  src2 (s.needed_frames - n)).1) (s.needed_frames - n) := by
              rw [hsplit.1]
              refine afterWindow_shift _ s.audio_data_index
                s.short_term_frame_counter s.needed_frames s.needed_frames
                (s.needed_frames - n) ?_ ?_ ?_
              · rw [hsplit.2.2.2.2.2.1, hsplit.2.2.2.2.2.2.1]
                rw [Nat.add_assoc, ← Nat.add_mul,
                  show n + (s.needed_frames - n) = s.needed_frames from by omega]
              · intro hLm
                rw [hsplit.2.2.2.2.2.2.2.1] at hLm
                rw [hsplit.2.2.2.2.2.2.2.2.1, if_pos hLm]
                omega
              · intro hLm
                rw [hsplit.2.2.2.2.2.2.2.1] at hLm
                rw [hsplit.2.2.2.2.2.2.2.2.1, if_neg hLm]
            rw [hstate, hdrop,
              show n + m - s.needed_frames = m - (s.needed_frames - n) from by omega]
          · -- the window is still incomplete after both chunks
            have hsplit := filter_split_shape s src1 src2 n m
              (afterPartial (s.filter_float src1 n).1 n) rfl hlen1 h0 hm0
              (le_of_eq hlen2.symm) hv
            have hFeq : s.filter_float (src1 ++ src2) (n + m) =
                ((s.filter_float (src1 ++ src2) (n + m)).1, none) := by
              rw [← hsplit.2.1]
            have hGeq : (afterPartial (s.filter_float src1 n).1 n).filter_float src2 m =
                (((afterPartial (s.filter_float src1 n).1 n).filter_float src2 m).1,
                  none) := by
              rw [← hsplit.2.2.1]
            have hL2 : addFramesGo s (src1 ++ src2) (n + m) =
                (afterPartial (s.filter_float (src1 ++ src2) (n + m)).1 (n + m),
                  none) := by
              conv_lhs => rw [addFramesGo]
              rw [dif_neg (by omega : ¬n + m = 0), dif_neg hneed0, dif_neg hble, hFeq]
            have hR2 : addFramesGo (afterPartial (s.filter_float src1 n).1 n) src2 m =
                (afterPartial
                  (((afterPartial (s.filter_float src1 n).1 n).filter_float src2 m).1)
                  m, none) := by
              conv_lhs => rw [addFramesGo]
              rw [dif_neg hm0, hsAneed,
                dif_neg (by omega : ¬s.needed_frames - n = 0),
                dif_neg (by omega : ¬s.needed_frames - n ≤ m), hGeq]
            rw [hL2, hR1, hR2]
            refine Prod.ext ?_ rfl
            show afterPartial (s.filter_float (src1 ++ src2) (n + m)).1 (n + m) =
              afterPartial
                (((afterPartial (s.filter_float src1 n).1 n).filter_float src2 m).1) m
            rw [hsplit.1]
            refine afterPartial_shift _ s.audio_data_index
              s.short_term_frame_counter s.needed_frames (n + m) m ?_ ?_ ?_ ?_
            · rw [hsplit.2.2.2.2.2.1, hsplit.2.2.2.2.2.2.1, Nat.add_mul]
              omega
            · intro hLm
              rw [hsplit.2.2.2.2.2.2.2.1] at hLm
              rw [hsplit.2.2.2.2.2.2.2.2.1, if_pos hLm]
              omega
            · intro hLm
              rw [hsplit.2.2.2.2.2.2.2.1] at hLm
              rw [hsplit.2.2.2.2.2.2.2.2.1, if_neg hLm]
            · rw [hsplit.2.2.2.2.2.2.2.2.2]
              omega

theorem addFramesChunked_eq :
    ∀ (chunks : List (List ℚ)) (s : Ebur128State ℚ),
      5 ≤ s.sample_rate → 1 ≤ s.needed_frames → 1 ≤ s.channels →
      s.channels ≤ s.v.length →
      (∀ c ∈ chunks, s.channels ∣ c.length) →
      addFramesChunked s chunks =
        (addFramesGo s chunks.flatten (chunks.flatten.length / s.channels)).1 := by
  intro chunks
  induction chunks with
  | nil =>
    intro s h5 h1 hch hv hdvd
    show s = (addFramesGo s ([] : List ℚ) (([] : List ℚ).length / s.channels)).1
    rw [show (([] : List ℚ).length / s.channels) = 0 from by simp,
      addFramesGo, dif_pos rfl]
  | cons c rest ihc =>
    intro s h5 h1 hch hv hdvd
    have hch0 : 0 < s.channels := hch
    obtain ⟨k, hk⟩ := hdvd c (List.mem_cons_self c rest)
    have hkn : c.length / s.channels = k := by
      rw [hk, Nat.mul_div_cancel_left _ hch0]
    have hdvdrest : s.channels ∣ rest.flatten.length := by
      rw [List.length_flatten rest]
      exact List.dvd_sum (fun x hx => by
        obtain ⟨cc, hcc, rfl⟩ := List.mem_map.mp hx
        exact hdvd cc (List.mem_cons_of_mem _ hcc))
    obtain ⟨kr, hkr⟩ := hdvdrest
    have hm : rest.flatten.length / s.channels = kr := by
      rw [hkr, Nat.mul_div_cancel_left _ hch0]
    have hlen1 : c.length = k * s.channels := by rw [hk, Nat.mul_comm]
    have hlen2 : rest.flatten.length = kr * s.channels := by
      rw [hkr, Nat.mul_comm]
    have htot : (c :: rest).flatten.length / s.channels = k + kr := by
      rw [show (c :: rest).flatten = c ++ rest.flatten from rfl,
        List.length_append, hlen1, hlen2, ← Nat.add_mul,
        Nat.mul_div_cancel _ hch0]
    have hinv := addFramesGo_inv k s c h5 h1 hlen1
    have happ := addFramesGo_append k s c rest.flatten kr h5 h1 hch hv hlen1 hlen2
    have hIH := ihc (addFramesGo s c k).1
      (by rw [hinv.2.1]; exact h5)
      hinv.2.2.2.1
      (by rw [hinv.2.2.1]; exact hch)
      (by rw [hinv.2.2.1, hinv.2.2.2.2]; exact hv)
      (fun cc hcc => by rw [hinv.2.2.1]; exact hdvd cc (List.mem_cons_of_mem _ hcc))
    rw [hinv.2.2.1, hm] at hIH
    have hcons : addFramesChunked s (c :: rest) =
        addFramesChunked (s.add_frames_float c (c.length / s.channels)).1 rest := rfl
    rw [hcons, hkn, Ebur128State.add_frames_float, hIH, htot,
      show (c :: rest).flatten = c ++ rest.flatten from rfl, happ]

/-- **C8**: for every meter state with at least one channel, a live window
countdown and a sample rate of at least 5 Hz (every state built by
`Ebur128State::new` with such a sample rate qualifies), and every way of
splitting an input sample sequence into consecutive whole-frame chunks,
feeding the chunks in order through `add_frames_float` produces exactly the
same final meter state as feeding the concatenated sequence in a single
call, and hence the same integrated loudness (chunk-invariance, exact
equality over the embedded arithmetic). -/
theorem claim_C8_chunk_invariance (s : Ebur128State ℚ) (chunks : List (List ℚ))
    (h5 : 5 ≤ s.sample_rate) (h1 : 1 ≤ s.needed_frames) (hch : 1 ≤ s.channels)
    (hv : s.channels ≤ s.v.length)
    (hdvd : ∀ c ∈ chunks, s.channels ∣ c.length) :
    addFramesChunked s chunks =
      (s.add_frames_float chunks.flatten (chunks.flatten.length / s.channels)).1 ∧
    (addFramesChunked s chunks).loudness_global =
      (s.add_frames_float chunks.flatten
        (chunks.flatten.length / s.channels)).1.loudness_global := by
  have h := addFramesChunked_eq chunks s h5 h1 hch hv hdvd
  exact ⟨h, by rw [h, Ebur128State.add_frames_float]⟩

theorem claim_C8_chunk_invariance_witness :
    (5 ≤ stateFreshMono.sample_rate ∧ 1 ≤ stateFreshMono.needed_frames ∧
      1 ≤ stateFreshMono.channels ∧
      stateFreshMono.channels ≤ stateFreshMono.v.length ∧
      (∀ c ∈ [[(1 : ℚ)], [2, 3], [4]], stateFreshMono.channels ∣ c.length)) ∧
    (addFramesChunked stateFreshMono [[(1 : ℚ)], [2, 3], [4]] =
      (stateFreshMono.add_frames_float [[(1 : ℚ)], [2, 3], [4]].flatten
        ([[(1 : ℚ)], [2, 3], [4]].flatten.length / stateFreshMono.channels)).1 ∧
    (addFramesChunked stateFreshMono [[(1 : ℚ)], [2, 3], [4]]).loudness_global =
      (stateFreshMono.add_frames_float [[(1 : ℚ)], [2, 3], [4]].flatten
        ([[(1 : ℚ)], [2, 3], [4]].flatten.length /
          stateFreshMono.channels)).1.loudness_global) :=
  ⟨⟨by decide, by decide, by decide, by decide, by decide⟩,
    claim_C8_chunk_invariance stateFreshMono [[(1 : ℚ)], [2, 3], [4]]
      (by decide) (by decide) (by decide) (by decide) (by decide)⟩

theorem getD_zero (l : List ℚ) (h : ∀ x ∈ l, x = 0) (i : ℕ) : l.getD i 0 = 0 := by
  rw [List.getD_eq_getElem?_getD]
  rcases hx : l[i]? with _ | x
  · rfl
  · simpa using h x (List.getElem?_mem hx)

theorem filterChannelStep_zero (a b vc : List ℚ) (hvc : ∀ x ∈ vc, x = 0) :
    (∀ x ∈ (filterChannelStep a b vc 0).1, x = 0) ∧
      (filterChannelStep a b vc 0).2 = 0 := by
  have h1 := getD_zero vc hvc 1
  have h2 := getD_zero vc hvc 2
  have h3 := getD_zero vc hvc 3
  have h4 := getD_zero vc hvc 4
  constructor
  · intro x hx
    simp only [filterChannelStep, List.mem_cons, List.not_mem_nil, or_false] at hx
    rcases hx with rfl | rfl | rfl | rfl | rfl
    · rw [h1, h2, h3, h4]; ring
    · rw [h1, h2, h3, h4]; ring
    · exact h1
    · exact h2
    · exact h3
  · simp only [filterChannelStep]
    rw [h1, h2, h3, h4]
    ring

theorem filterChannelGo_zero (a b : List ℚ) (ch c : ℕ) (src : List ℚ)
    (base : ℕ) (hsrc : ∀ x ∈ src, x = 0) (k : ℕ) :
    ∀ (i : ℕ) (vc buf : List ℚ), (∀ x ∈ vc, x = 0) → (∀ x ∈ buf, x = 0) →
      (∀ x ∈ (filterChannelGo a b ch c src base k i vc buf).1, x = 0) ∧
      (∀ x ∈ (filterChannelGo a b ch c src base k i vc buf).2, x = 0) := by
  induction k with
  | zero => exact fun i vc buf hvc hbuf => ⟨hvc, hbuf⟩
  | succ k ih =>
    intro i vc buf hvc hbuf
    simp only [filterChannelGo]
    rw [getD_zero src hsrc]
    have hstep := filterChannelStep_zero a b vc hvc
    refine ih (i + 1) _ _ hstep.1 ?_
    intro x hx
    rcases List.mem_or_eq_of_mem_set hx with hmem | rfl
    · exact hbuf x hmem
    · exact hstep.2

theorem filterChannelsGo_zero (a b : List ℚ) (cmap : List ℤ) (ch : ℕ)
    (src : List ℚ) (frames base : ℕ) (hsrc : ∀ x ∈ src, x = 0) (k : ℕ) :
    ∀ (c : ℕ) (v : List (List ℚ)) (buf : List ℚ),
      (∀ vc ∈ v, ∀ x ∈ vc, x = 0) → (∀ x ∈ buf, x = 0) →
      (∀ vc ∈ (filterChannelsGo a b cmap ch src frames base k c v buf).1,
        ∀ x ∈ vc, x = 0) ∧
      (∀ x ∈ (filterChannelsGo a b cmap ch src frames base k c v buf).2,
        x = 0) := by
  induction k with
  | zero => exact fun c v buf hv hbuf => ⟨hv, hbuf⟩
  | succ k ih =>
    intro c v buf hv hbuf
    simp only [filterChannelsGo]
    by_cases hc : cmap.getD c 0 = EBUR128_UNUSED
    · simp only [if_pos hc]
      exact ih (c + 1) v buf hv hbuf
    · simp only [if_neg hc]
      have hvc : ∀ x ∈ v.getD c [], x = 0 := by
        rw [List.getD_eq_getElem?_getD]
        rcases hx : v[c]? with _ | vc
        · simp
        · simpa using hv vc (List.getElem?_mem hx)
      have hgo := filterChannelGo_zero a b ch c src base hsrc frames 0
        (v.getD c []) buf hvc hbuf
      refine ih (c + 1) _ _ ?_ hgo.2
      intro vc hvcmem
      rcases List.mem_or_eq_of_mem_set hvcmem with hmem | rfl
      · exact hv vc hmem
      · exact hgo.1

theorem filter_float_zero (s : Ebur128State ℚ) (src : List ℚ) (frames : ℕ)
    (had : ∀ x ∈ s.audio_data, x = 0) (hvz : ∀ vc ∈ s.v, ∀ x ∈ vc, x = 0)
    (hsrc : ∀ x ∈ src, x = 0) :
    (∀ vc ∈ (s.filter_float src frames).1.v, ∀ x ∈ vc, x = 0) ∧
      (∀ x ∈ (s.filter_float src frames).1.audio_data, x = 0) := by
  rw [Ebur128State.filter_float]
  by_cases hok : frames = 0 ∨ src.length < frames * s.channels
  · rw [if_pos hok]
    exact ⟨hvz, had⟩
  · rw [if_neg hok]
    exact filterChannelsGo_zero s.a s.b s.channel_map s.channels src frames
      s.audio_data_index hsrc s.channels 0 s.v s.audio_data hvz had

theorem calcGatingBlockEnergy_zero (s : Ebur128State ℚ) (fpb : ℕ)
    (had : ∀ x ∈ s.audio_data, x = 0) : s.calcGatingBlockEnergy fpb = 0 := by
  have hgetD := getD_zero s.audio_data had
  have hadd : ∀ x y : ℚ, x = 0 → y = 0 → x + y = 0 := fun x y hx hy => by
    rw [hx, hy, add_zero]
  simp only [Ebur128State.calcGatingBlockEnergy]
  convert zero_div ((fpb : ℚ)) using 2
  apply List.sum_eq_zero
  intro x hx
  obtain ⟨c, _, rfl⟩ := List.mem_map.mp hx
  split_ifs with h1 h2 h3 h4
  · rfl
  · refine mul_eq_zero_of_left ?_ _
    refine hadd _ _ (List.sum_eq_zero ?_) (List.sum_eq_zero ?_) <;>
      (intro y hy; obtain ⟨q, hq, rfl⟩ := List.mem_map.mp hy)
    · rw [had q (List.mem_of_mem_take hq), mul_zero]
    · rw [had q (List.mem_of_mem_drop (List.mem_of_mem_take hq)), mul_zero]
  · refine mul_eq_zero_of_left (List.sum_eq_zero ?_) _
    intro y hy
    obtain ⟨i, _, rfl⟩ := List.mem_map.mp hy
    rw [hgetD, mul_zero]
  · refine hadd _ _ (List.sum_eq_zero ?_) (List.sum_eq_zero ?_) <;>
      (intro y hy; obtain ⟨q, hq, rfl⟩ := List.mem_map.mp hy)
    · rw [had q (List.mem_of_mem_take hq), mul_zero]
    · rw [had q (List.mem_of_mem_drop (List.mem_of_mem_take hq)), mul_zero]
  · apply List.sum_eq_zero
    intro y hy
    obtain ⟨i, _, rfl⟩ := List.mem_map.mp hy
    rw [hgetD, mul_zero]

theorem afterWindow_block_zero (s1 : Ebur128State ℚ) (n : ℕ)
    (had : ∀ x ∈ s1.audio_data, x = 0) :
    (afterWindow s1 n).block_list = s1.block_list := by
  simp only [afterWindow]
  rw [(afterWindowLRA_fields _ n).2.2.2.2.2.2.2.2.2.2.1]
  by_cases hI : s1.mode &&& EBUR128_MODE_I = EBUR128_MODE_I
  · rw [if_pos hI, Ebur128State.calc_gating_block]
    have hE : Ebur128State.calcGatingBlockEnergy
        { s1 with audio_data_index := s1.audio_data_index + n * s1.channels }
        (s1.sample_rate / 5 * 2) = 0 :=
      calcGatingBlockEnergy_zero _ _ had
    simp only [hE]
    rw [if_neg (by norm_num [Ebur128State.ABS_THRESHOLD_ENERGY])]
  · rw [if_neg hI]

theorem addFramesGo_silence :
    ∀ (n : ℕ) (s : Ebur128State ℚ) (src : List ℚ),
      (∀ x ∈ s.audio_data, x = 0) → (∀ vc ∈ s.v, ∀ x ∈ vc, x = 0) →
      (∀ x ∈ src, x = 0) →
      (addFramesGo s src n).1.block_list = s.block_list := by
  intro n
  induction n using Nat.strong_induction_on with
  | _ n ih =>
    intro s src had hvz hsrc
    rw [addFramesGo]
    by_cases h0 : n = 0
    · rw [dif_pos h0]
    · rw [dif_neg h0]
      by_cases hn : s.needed_frames = 0
      · rw [dif_pos hn]
      · rw [dif_neg hn]
        have hzero := filter_float_zero s src s.needed_frames had hvz hsrc
        have hzero2 := filter_float_zero s src n had hvz hsrc
        by_cases hle : s.needed_frames ≤ n
        · rw [dif_pos hle]
          rcases hres : (s.filter_float src s.needed_frames).2 with _ | e
          · rw [show s.filter_float src s.needed_frames =
                ((s.filter_float src s.needed_frames).1, none) from by rw [← hres]]
            have hbl := (filter_float_fields s src
              s.needed_frames).2.2.2.2.2.2.2.2.2.1
            have haw := afterWindow_fields (s.filter_float src s.needed_frames).1
              s.needed_frames
            have h1 := ih (n - s.needed_frames) (by omega)
              (afterWindow (s.filter_float src s.needed_frames).1 s.needed_frames)
              (src.drop (s.needed_frames * s.channels))
              (by rw [haw.2.2.2.2.2.2.2.1]; exact hzero.2)
              (by rw [haw.2.2.2.2.2.2.1]; exact hzero.1)
              (fun x hx => hsrc x (List.mem_of_mem_drop hx))
            rw [h1, afterWindow_block_zero _ _ hzero.2, hbl]
          · rw [show s.filter_float src s.needed_frames =
                ((s.filter_float src s.needed_frames).1, some e) from by rw [← hres]]
            exact (filter_float_fields s src s.needed_frames).2.2.2.2.2.2.2.2.2.1
        · rw [dif_neg hle]
          rcases hres : (s.filter_float src n).2 with _ | e
          · rw [show s.filter_float src n = ((s.filter_float src n).1, none) from by
              rw [← hres]]
            rw [show ((afterPartial (s.filter_float src n).1 n,
                (none : Option String))).1 = afterPartial (s.filter_float src n).1 n
              from rfl,
              (afterPartial_fields (s.filter_float src n).1 n).2.2.2.2.2.2.2.2.2.2.1]
            exact (filter_float_fields s src n).2.2.2.2.2.2.2.2.2.1
          · rw [show s.filter_float src n = ((s.filter_float src n).1, some e) from by
              rw [← hres]]
            exact (filter_float_fields s src n).2.2.2.2.2.2.2.2.2.1

theorem loudness_global_nil (s : Ebur128State ℚ) (h : s.block_list = []) :
    s.loudness_global = none := by
  rw [Ebur128State.loudness_global]
  by_cases hI : s.mode &&& EBUR128_MODE_I = EBUR128_MODE_I
  · rw [if_pos hI, Ebur128State.gated_loudness]
    simp [h, gatedLoudnessEnergyCore]
  · rw [if_neg hI]

/-- **C9**: a meter state with integrated mode enabled whose ring buffer and
filter histories hold only zeros and whose block list is empty (in
particular a fresh meter), fed only all-zero samples for a total frame count
covering at least one full window, stores no gating block (the zero-energy
window never clears the absolute gate) and `loudness_global` returns
none/unavailable. -/
theorem claim_C9_silence (s : Ebur128State ℚ) (src : List ℚ) (n : ℕ)
    (hmode : s.mode &&& EBUR128_MODE_I = EBUR128_MODE_I)
    (hwin : s.needed_frames ≤ n)
    (had : ∀ x ∈ s.audio_data, x = 0)
    (hvz : ∀ vc ∈ s.v, ∀ x ∈ vc, x = 0)
    (hbl : s.block_list = [])
    (hsrc : ∀ x ∈ src, x = 0) :
    (s.add_frames_float src n).1.block_list = [] ∧
      (s.add_frames_float src n).1.loudness_global = none := by
  have h : (s.add_frames_float src n).1.block_list = [] :=
    (addFramesGo_silence n s src had hvz hsrc).trans hbl
  exact ⟨h, loudness_global_nil _ h⟩

theorem claim_C9_silence_witness :
    (stateFreshMono.mode &&& EBUR128_MODE_I = EBUR128_MODE_I ∧
      stateFreshMono.needed_frames ≤ 3 ∧
      (∀ x ∈ stateFreshMono.audio_data, x = 0) ∧
      (∀ vc ∈ stateFreshMono.v, ∀ x ∈ vc, x = 0) ∧
      stateFreshMono.block_list = [] ∧
      (∀ x ∈ [(0 : ℚ), 0, 0], x = 0)) ∧
    ((stateFreshMono.add_frames_float [(0 : ℚ), 0, 0] 3).1.block_list = [] ∧
      (stateFreshMono.add_frames_float [(0 : ℚ), 0, 0] 3).1.loudness_global =
        none) :=
  ⟨⟨by decide, by decide, by decide, by decide, by decide, by decide⟩,
    claim_C9_silence stateFreshMono [(0 : ℚ), 0, 0] 3 (by decide) (by decide)
      (by decide) (by decide) (by decide) (by decide)⟩

theorem init_channel_map_unused (st : Ebur128State ℚ) (i : ℕ)
    (hi : i < st.channels) (h36 : i = 3 ∨ 6 ≤ i) :
    (Ebur128State.init_channel_map st).channel_map.getD i 0 = EBUR128_UNUSED := by
  simp only [Ebur128State.init_channel_map]
  rw [List.getD_eq_getElem?_getD, List.getElem?_map, List.getElem?_range hi]
  rcases h36 with rfl | h6
  · rfl
  · obtain ⟨j, rfl⟩ : ∃ j, i = j + 6 := ⟨i - 6, by omega⟩
    rfl

theorem filter_float_congr (s : Ebur128State ℚ) (src src' : List ℚ) (f : ℕ)
    (hlen : src.length = src'.length)
    (H : ∀ j c, c < s.channels → s.channel_map.getD c 0 ≠ EBUR128_UNUSED →
      src.getD (j * s.channels + c) 0 = src'.getD (j * s.channels + c) 0) :
    s.filter_float src f = s.filter_float src' f := by
  rw [Ebur128State.filter_float, Ebur128State.filter_float, hlen]
  by_cases hok : f = 0 ∨ src'.length < f * s.channels
  · rw [if_pos hok, if_pos hok]
  · rw [if_neg hok, if_neg hok]
    rw [filterChannelsGo_congr s.a s.b s.channel_map s.channels src src' f
      s.audio_data_index s.channels 0 s.v s.audio_data
      (fun c3 j h1 h2 h3 h4 => H j c3 (by omega) h3)]

theorem addFramesGo_congr_unused :
    ∀ (n : ℕ) (s : Ebur128State ℚ) (src src' : List ℚ),
      src.length = src'.length →
      (∀ j c, c < s.channels → s.channel_map.getD c 0 ≠ EBUR128_UNUSED →
        src.getD (j * s.channels + c) 0 = src'.getD (j * s.channels + c) 0) →
      addFramesGo s src n = addFramesGo s src' n := by
  intro n
  induction n using Nat.strong_induction_on with
  | _ n ih =>
    intro s src src' hlen H
    by_cases h0 : n = 0
    · subst h0
      rw [show addFramesGo s src 0 = (s, none) from by rw [addFramesGo, dif_pos rfl],
        show addFramesGo s src' 0 = (s, none) from by rw [addFramesGo, dif_pos rfl]]
    · by_cases hn : s.needed_frames = 0
      · rw [show addFramesGo s src n =
            (s, some "Invalid frame count or source buffer size") from by
              rw [addFramesGo, dif_neg h0, dif_pos hn],
          show addFramesGo s src' n =
            (s, some "Invalid frame count or source buffer size") from by
              rw [addFramesGo, dif_neg h0, dif_pos hn]]
      · by_cases hle : s.needed_frames ≤ n
        · have hfeq := filter_float_congr s src src' s.needed_frames hlen H
          have hL : addFramesGo s src n =
              match s.filter_float src' s.needed_frames with
              | (s1, some e) => (s1, some e)
              | (s1, none) =>
                addFramesGo (afterWindow s1 s.needed_frames)
                  (src.drop (s.needed_frames * s.channels))
                  (n - s.needed_frames) := by
            conv_lhs => rw [addFramesGo]
            rw [dif_neg h0, dif_neg hn, dif_pos hle, hfeq]
          have hR : addFramesGo s src' n =
              match s.filter_float src' s.needed_frames with
              | (s1, some e) => (s1, some e)
              | (s1, none) =>
                addFramesGo (afterWindow s1 s.needed_frames)
                  (src'.drop (s.needed_frames * s.channels))
                  (n - s.needed_frames) := by
            conv_lhs => rw [addFramesGo]
            rw [dif_neg h0, dif_neg hn, dif_pos hle]
          rw [hL, hR]
          rcases hres : (s.filter_float src' s.needed_frames).2 with _ | e
          · rw [show s.filter_float src' s.needed_frames =
                ((s.filter_float src' s.needed_frames).1, none) from by rw [← hres]]
            have haw := afterWindow_fields (s.filter_float src' s.needed_frames).1
              s.needed_frames
            have hff := filter_float_fields s src' s.needed_frames
            refine ih (n - s.needed_frames) (by omega) _ _ _ ?_ ?_
            · rw [List.length_drop, List.length_drop, hlen]
            · intro j c hc hcm
              rw [haw.2.2.1, hff.2.2.1] at hc
              rw [haw.2.2.2.1, hff.2.2.2.1] at hcm
              rw [haw.2.2.1, hff.2.2.1, getD_drop, getD_drop,
                show s.needed_frames * s.channels + (j * s.channels + c) =
                  (s.needed_frames + j) * s.channels + c from by ring]
              exact H (s.needed_frames + j) c hc hcm
          · rw [show s.filter_float src' s.needed_frames =
                ((s.filter_float src' s.needed_frames).1, some e) from by rw [← hres]]
        · have hfeq := filter_float_congr s src src' n hlen H
          have hL : addFramesGo s src n =
              match s.filter_float src' n with
              | (s1, some e) => (s1, some e)
              | (s1, none) => (afterPartial s1 n, none) := by
            conv_lhs => rw [addFramesGo]
            rw [dif_neg h0, dif_neg hn, dif_neg hle, hfeq]
          have hR : addFramesGo s src' n =
              match s.filter_float src' n with
              | (s1, some e) => (s1, some e)
              | (s1, none) => (afterPartial s1 n, none) := by
            conv_lhs => rw [addFramesGo]
            rw [dif_neg h0, dif_neg hn, dif_neg hle]
          rw [hL, hR]

/-- **C10**: under the default channel mapping laid down at construction,
channel index 3 and every channel index at 6 or above carry the unused role
(only indices 0, 1, 2 — left, right, center — and 4, 5 — the surround pair —
are live), and the samples of unused channels never influence the meter: two
inputs of equal length that agree on every sample of the live channel
indices produce identical `add_frames_float` results, hence identical
filtered buffers, gating blocks and energies. -/
theorem claim_C10_unused_channels :
    (∀ (st : Ebur128State ℚ) (i : ℕ), i < st.channels → (i = 3 ∨ 6 ≤ i) →
      (Ebur128State.init_channel_map st).channel_map.getD i 0 =
        EBUR128_UNUSED) ∧
    (∀ (s : Ebur128State ℚ) (src src' : List ℚ) (n : ℕ),
      s.channel_map = (Ebur128State.init_channel_map s).channel_map →
      src.length = src'.length →
      (∀ j c, c < s.channels → c ≠ 3 → c < 6 →
        src.getD (j * s.channels + c) 0 = src'.getD (j * s.channels + c) 0) →
      s.add_frames_float src n = s.add_frames_float src' n) := by
  refine ⟨fun st i hi h36 => init_channel_map_unused st i hi h36, ?_⟩
  intro s src src' n hcm hlen H
  rw [Ebur128State.add_frames_float, Ebur128State.add_frames_float]
  refine addFramesGo_congr_unused n s src src' hlen ?_
  intro j c hc hcmne
  refine H j c hc ?_ ?_
  · intro hc3
    apply hcmne
    rw [hcm]
    exact init_channel_map_unused s c hc (Or.inl hc3)
  · by_contra hc6
    apply hcmne
    rw [hcm]
    exact init_channel_map_unused s c hc (Or.inr (by omega))

theorem claim_C10_unused_channels_witness :
    ((3 < stateQuad.channels ∧ ((3 : ℕ) = 3 ∨ 6 ≤ 3) ∧
      (Ebur128State.init_channel_map stateQuad).channel_map.getD 3 0 =
        EBUR128_UNUSED) ∧
    (6 < stateQuad.channels ∨ True)) ∧
    (stateQuad.channel_map =
        (Ebur128State.init_channel_map stateQuad).channel_map ∧
      ([(0 : ℚ), 0, 0, 5] : List ℚ).length = ([(0 : ℚ), 0, 0, 7] : List ℚ).length ∧
      stateQuad.add_frames_float [(0 : ℚ), 0, 0, 5] 1 =
        stateQuad.add_frames_float [(0 : ℚ), 0, 0, 7] 1) := by
  refine ⟨⟨⟨by decide, Or.inl rfl,
      claim_C10_unused_channels.1 stateQuad 3 (by decide) (Or.inl rfl)⟩,
      Or.inr trivial⟩,
    by decide, rfl,
    claim_C10_unused_channels.2 stateQuad [(0 : ℚ), 0, 0, 5] [(0 : ℚ), 0, 0, 7] 1
      (by decide) rfl ?_⟩
  intro j c hc hc3 hc6
  have hc4 : c < 4 := hc
  have hcc : c = 0 ∨ c = 1 ∨ c = 2 := by omega
  show ([(0 : ℚ), 0, 0, 5] : List ℚ).getD (j * 4 + c) 0 =
    ([(0 : ℚ), 0, 0, 7] : List ℚ).getD (j * 4 + c) 0
  rcases j with _ | j
  · rcases hcc with rfl | rfl | rfl <;> rfl
  · rw [getD_eq_default _ _ (by simp; omega), getD_eq_default _ _ (by simp; omega)]
